import Mathlib

/-!
# LibrePCB board editor: the "draw trace" state (`BES_DrawTrace`)

A shallow embedding of `libs/librepcb/projecteditor/boardeditor/fsm/bes_drawtrace.cpp`.

* Lengths are 64-bit signed integers (nanometres); the embedding uses `Int` for the values
  and wraps the results of the arithmetic of `Length` modulo `2^64`, as the two's complement
  arithmetic of the compiled program does.
* Objects that the C++ code reaches through pointers (`BI_NetPoint*`, `BI_NetLine*`) are
  records in a store, addressed by an identity number; a null pointer is `none`.
* A function returns `none` where the C++ code has no defined behaviour (a violated
  `Q_ASSERT`, a null or dangling pointer dereference).
* C++ exceptions are values of `Exception`; a `try`/`catch` is a `match` on the outcome.
* The undo stack, the undo commands and the circuit are collaborators whose code is not part
  of the translated file; they are modelled from the specification and marked as such.
-/

namespace librepcb

/-! ## Geometry -/

/-- Modelled from the spec: the `Length` class (units/length.h) is missing; a length is a
fixed-precision integer number of nanometres (spec section 3), held in a 64-bit signed
integer. The values are integers of `[-2^63, 2^63)`; the arithmetic of the class wraps
modulo `2^64` (`Length.wrap`). -/
abbrev Length := Int

/-- The 64-bit two's complement value of an integer: the one number of `[-2^63, 2^63)`
that differs from `z` by a multiple of `2^64`. -/
def Length.wrap (z : Int) : Length :=
  (z + 9223372036854775808) % 18446744073709551616 - 9223372036854775808

/-- Modelled from the spec: `Length::operator+` (units/length.h) is missing; 64-bit sum. -/
def Length.add (a b : Length) : Length := Length.wrap (a + b)

/-- Modelled from the spec: `Length::operator-` (units/length.h) is missing; 64-bit
difference. -/
def Length.sub (a b : Length) : Length := Length.wrap (a - b)

/-- Modelled from the spec: `Length::operator*` with an integer factor (units/length.h) is
missing; 64-bit product. -/
def Length.mul (a : Length) (n : Int) : Length := Length.wrap (a * n)

/-- Modelled from the spec: `Length::abs()` (units/length.h) is missing; the 64-bit absolute
value (the absolute value of `-2^63` wraps to `-2^63`). -/
def Length.abs (l : Length) : Length := Length.wrap (if l < 0 then -l else l)

/-- Modelled from the spec: the `Point` class (units/point.h) is missing; an immutable pair of
integer coordinates, a value type without identity. -/
structure Point where
  x : Length
  y : Length
deriving DecidableEq, Repr

/-- Modelled from the spec: `Point::operator-` (units/point.h) is missing; componentwise. -/
def Point.sub (p q : Point) : Point := ⟨Length.sub p.x q.x, Length.sub p.y q.y⟩

/-- The enum `BES_DrawTrace::WireMode`, in the order in which `entry()` fills the toolbar.
`WireMode_COUNT` is kept apart as the number of modes. -/
inductive WireMode where
  | WireMode_HV
  | WireMode_VH
  | WireMode_9045
  | WireMode_4590
  | WireMode_Straight
deriving DecidableEq, Repr

/-- The enumerator `WireMode_COUNT`. -/
def WireMode_COUNT : Nat := 5

/-- The integer value of an enumerator. -/
def WireMode.value : WireMode → Nat
  | .WireMode_HV => 0
  | .WireMode_VH => 1
  | .WireMode_9045 => 2
  | .WireMode_4590 => 3
  | .WireMode_Straight => 4

/-- The cast `static_cast<WireMode>(n)` for the values the code casts. -/
def WireMode.cast : Nat → WireMode
  | 0 => .WireMode_HV
  | 1 => .WireMode_VH
  | 2 => .WireMode_9045
  | 3 => .WireMode_4590
  | _ => .WireMode_Straight

/-- Source function `BES_DrawTrace::calcMiddlePointPos` (bes_drawtrace.cpp, lines 497-522). -/
def calcMiddlePointPos (p1 p2 : Point) (mode : WireMode) : Point :=
  let delta := p2.sub p1
  match mode with
  | .WireMode_HV => ⟨p2.x, p1.y⟩
  | .WireMode_VH => ⟨p1.x, p2.y⟩
  | .WireMode_9045 =>
    if Length.abs delta.x ≥ Length.abs delta.y then
      ⟨Length.sub p2.x (Length.mul (Length.abs delta.y) (if delta.x ≥ 0 then 1 else -1)), p1.y⟩
    else
      ⟨p1.x, Length.sub p2.y (Length.mul (Length.abs delta.x) (if delta.y ≥ 0 then 1 else -1))⟩
  | .WireMode_4590 =>
    if Length.abs delta.x ≥ Length.abs delta.y then
      ⟨Length.add p1.x (Length.mul (Length.abs delta.y) (if delta.x ≥ 0 then 1 else -1)), p2.y⟩
    else
      ⟨p2.x, Length.add p1.y (Length.mul (Length.abs delta.x) (if delta.y ≥ 0 then 1 else -1))⟩
  | .WireMode_Straight => p1

/-- The sign used by the table of spec section 4.2: `sign(0)` is `+1`. -/
def specSign (d : Int) : Int := if 0 ≤ d then 1 else -1

/-- The table of spec section 4.2, written from the words of the specification. -/
def specMidpoint (p1 p2 : Point) (mode : WireMode) : Point :=
  let dx := p2.x - p1.x
  let dy := p2.y - p1.y
  match mode with
  | .WireMode_HV => ⟨p2.x, p1.y⟩
  | .WireMode_VH => ⟨p1.x, p2.y⟩
  | .WireMode_9045 =>
    if |dx| ≥ |dy| then ⟨p2.x - specSign dx * |dy|, p1.y⟩
    else ⟨p1.x, p2.y - specSign dy * |dx|⟩
  | .WireMode_4590 =>
    if |dx| ≥ |dy| then ⟨p1.x + specSign dx * |dy|, p2.y⟩
    else ⟨p2.x, p1.y + specSign dy * |dx|⟩
  | .WireMode_Straight => p1

/-! ## Board items -/

/-- Modelled from the spec: the class `BI_NetPoint` (boards/items/bi_netpoint.h) is missing.
A net point has an identity, an owning net segment (with the net signal of that segment),
a copper layer and a position; `isAddedToBoard` tells whether the object is currently part of
the board (an object removed by a merge stays alive inside its undo command). -/
structure BI_NetPoint where
  id : Nat
  netSegment : Nat
  netSignal : Nat
  layer : Nat
  position : Point
  isAddedToBoard : Bool
deriving DecidableEq, Repr

/-- Modelled from the spec: the class `BI_NetLine` (boards/items/bi_netline.h) is missing.
A net line joins two net points and carries a width. -/
structure BI_NetLine where
  id : Nat
  startPoint : Nat
  endPoint : Nat
  width : Length
  isAddedToBoard : Bool
deriving DecidableEq, Repr

/-- Modelled from the spec: the class `Board` is missing. The layer stack is the list of
layer names (numbers stand for the names); `netPoints` and `netLines` hold every net point and
net line object; `nextId` is the next unused object identity. -/
structure Board where
  layers : List Nat
  netPoints : List BI_NetPoint
  netLines : List BI_NetLine
  nextId : Nat
deriving DecidableEq, Repr

/-- Dereference of a `BI_NetPoint*`. -/
def Board.getNetPoint (b : Board) (id : Nat) : Option BI_NetPoint :=
  b.netPoints.find? (fun p => p.id == id)

/-- Dereference of a `BI_NetLine*`. -/
def Board.getNetLine (b : Board) (id : Nat) : Option BI_NetLine :=
  b.netLines.find? (fun l => l.id == id)

/-- The call `BI_NetPoint::setPosition`. -/
def Board.setPosition (b : Board) (id : Nat) (pos : Point) : Board :=
  { b with
    netPoints := b.netPoints.map (fun p => if p.id = id then { p with position := pos } else p) }

/-- The call `BI_NetLine::setWidth`. -/
def Board.setWidth (b : Board) (id : Nat) (w : Length) : Board :=
  { b with
    netLines := b.netLines.map (fun l => if l.id = id then { l with width := w } else l) }

/-- The call `BoardLayerStack::getLayer(name)`: the layer, or null when the stack has none of
that name. -/
def Board.getLayer (b : Board) (name : Nat) : Option Nat :=
  if name ∈ b.layers then some name else none

/-- Object identities are handed out in increasing order: every object of the board has an
identity below `nextId`. -/
def Board.WF (b : Board) : Prop :=
  (∀ p ∈ b.netPoints, p.id < b.nextId) ∧ (∀ l ∈ b.netLines, l.id < b.nextId)

/-! ## Undo commands and the undo stack -/

/-- The edits the state appends to the undo stack. `CmdBoardNetSegmentAddElements` carries the
objects made by its `addNetPoint` and `addNetLine` calls. -/
inductive UndoCommand where
  | CmdPlaceBoardNetPoint (pos : Point) (layer : Nat)
  | CmdBoardNetSegmentAddElements (netSegment : Nat) (netPoints : List BI_NetPoint)
      (netLines : List BI_NetLine)
  | CmdCombineBoardNetPoints (toBeRemoved : Nat) (result : Nat)
  | CmdCombineAllItemsUnderBoardNetPoint (netpoint : Nat)
deriving DecidableEq, Repr

/-- The exceptions of the program. `UserCanceled` is a subclass of `Exception`; the other
values are the errors the model distinguishes by their message. -/
inductive Exception where
  | UserCanceled
  | NoLayerSelected
  | NoCmdGroupActive
  | CmdGroupAlreadyActive
  | CommandFailed
deriving DecidableEq, Repr

/-- What the environment answers to one fallible call of the undo stack. -/
inductive Reply where
  | ok
  | userCanceled
  | failure
deriving DecidableEq, Repr

/-- The exception a reply stands for. -/
def Reply.toException : Reply → Option Exception
  | .ok => none
  | .userCanceled => some .UserCanceled
  | .failure => some .CommandFailed

/-- The calls made to the undo stack. -/
inductive UndoCall where
  | beginCmdGroup
  | appendToCmdGroup (cmd : UndoCommand)
  | commitCmdGroup
  | abortCmdGroup
deriving DecidableEq, Repr

/-- Modelled from the spec: the class `UndoStack` (common/undostack.h) is missing. The
transaction log of spec section 6: the committed groups, the open group (at most one) together
with the board as it was when the group was opened, and the history of calls with their
success. -/
structure UndoStack where
  committed : List (List UndoCommand)
  active : Option (Board × List UndoCommand)
  calls : List (UndoCall × Bool)
deriving DecidableEq, Repr

/-- What a command reports after it was executed: `CmdPlaceBoardNetPoint::getNetPoint()` and
`CmdCombineAllItemsUnderBoardNetPoint::hasCombinedSomeItems()`. -/
structure CmdResult where
  netPoint : Option Nat
  hasCombinedSomeItems : Bool
deriving DecidableEq, Repr

/-- The sub-states of the draw-trace state. -/
inductive SubState where
  | SubState_Idle
  | SubState_PositioningNetPoint
deriving DecidableEq, Repr

/-- The data members of `BES_DrawTrace` that the state machine uses. -/
structure BES_DrawTrace where
  mSubState : SubState
  mCurrentWireMode : WireMode
  mCurrentLayerName : Nat
  mCurrentWidth : Length
  mFixedNetPoint : Option Nat
  mPositioningNetLine1 : Option Nat
  mPositioningNetPoint1 : Option Nat
  mPositioningNetLine2 : Option Nat
  mPositioningNetPoint2 : Option Nat
deriving DecidableEq, Repr

/-- The controller together with everything it acts on: the undo stack, the active board, the
highlighted net signal of the circuit, the error message boxes shown so far, and the
environment (the answers to the coming undo stack calls, and the coming reports of
`hasCombinedSomeItems`). -/
structure Machine where
  ctl : BES_DrawTrace
  mUndoStack : UndoStack
  board : Board
  highlightedNetSignal : Option Nat
  msgBoxes : List Exception
  replies : List Reply
  combineReports : List Bool
deriving DecidableEq, Repr

/-- The call `QMessageBox::critical(..., e.getMsg())`. -/
def Machine.critical (m : Machine) (e : Exception) : Machine :=
  { m with msgBoxes := m.msgBoxes ++ [e] }

/-- Records a call in the history of the undo stack. -/
def Machine.logCall (m : Machine) (c : UndoCall) (success : Bool) : Machine :=
  { m with mUndoStack := { m.mUndoStack with calls := m.mUndoStack.calls ++ [(c, success)] } }

/-- The first answer of a script of the environment; an exhausted script answers `ok`. -/
def Reply.next : List Reply → Reply
  | [] => .ok
  | r :: _ => r

/-- The first report of `hasCombinedSomeItems` in a script of the environment; an exhausted
script reports `false`. -/
def nextCombineReport : List Bool → Bool
  | [] => false
  | b :: _ => b

/-- The answer of the environment to the next fallible call. -/
def Machine.nextReply (m : Machine) : Reply := Reply.next m.replies

/-- Consumes one answer of the environment. -/
def Machine.popReply (m : Machine) : Machine := { m with replies := m.replies.tail }

/-- Modelled from the spec: `CmdCombineBoardNetPoints` (cmd/cmdcombineboardnetpoints.h) is
missing. Spec section 4.1: every net line referencing the discarded point is retargeted to the
surviving point, then the discarded point is removed; a line whose two ends would then be the
same point is removed (spec section 3: the two endpoints of a net line are never equal). -/
def combineNetPoints (b : Board) (toBeRemoved result : Nat) : Board :=
  { b with
    netPoints := b.netPoints.map
      (fun p => if p.id = toBeRemoved then { p with isAddedToBoard := false } else p)
    netLines := b.netLines.map (fun l =>
      if l.isAddedToBoard ∧ (l.startPoint = toBeRemoved ∨ l.endPoint = toBeRemoved) then
        let s := if l.startPoint = toBeRemoved then result else l.startPoint
        let e := if l.endPoint = toBeRemoved then result else l.endPoint
        if s = e then { l with isAddedToBoard := false }
        else { l with startPoint := s, endPoint := e }
      else l) }

/-- Modelled from the spec: the `performExecute` methods of the undo commands are missing.
Placing a point makes a new net point in a new net segment (spec section 4.1, start);
adding elements adds the prepared points and lines to the board; combining two points is
`combineNetPoints`; combining all items under a point unifies it with pads, vias and traces
that are outside this model of the board, and reports what the environment says. -/
def UndoCommand.execute (cmd : UndoCommand) (m : Machine) : CmdResult × Machine :=
  match cmd with
  | .CmdPlaceBoardNetPoint pos layer =>
    let n := m.board.nextId
    let p : BI_NetPoint := ⟨n, n + 1, n + 2, layer, pos, true⟩
    (⟨some n, false⟩,
      { m with board := { m.board with netPoints := m.board.netPoints ++ [p], nextId := n + 3 } })
  | .CmdBoardNetSegmentAddElements _ ps ls =>
    (⟨none, false⟩,
      { m with board := { m.board with
          netPoints := m.board.netPoints ++ ps.map (fun p => { p with isAddedToBoard := true })
          netLines := m.board.netLines ++ ls.map (fun l => { l with isAddedToBoard := true }) } })
  | .CmdCombineBoardNetPoints r s =>
    (⟨none, false⟩, { m with board := combineNetPoints m.board r s })
  | .CmdCombineAllItemsUnderBoardNetPoint _ =>
    (⟨none, nextCombineReport m.combineReports⟩,
      { m with combineReports := m.combineReports.tail })

/-- Modelled from the spec: `UndoStack::beginCmdGroup` is missing. Opens a group; fails when a
group is already open (exactly one group is open at a time) or when the environment says
so. -/
def beginCmdGroup (m : Machine) : Option Exception × Machine :=
  match m.mUndoStack.active with
  | some _ => (some .CmdGroupAlreadyActive, m.logCall .beginCmdGroup false)
  | none =>
    match m.nextReply.toException with
    | some e => (some e, m.popReply.logCall .beginCmdGroup false)
    | none =>
      (none, { m.popReply with mUndoStack :=
        { committed := m.mUndoStack.committed
          active := some (m.board, [])
          calls := m.mUndoStack.calls ++ [(.beginCmdGroup, true)] } })

/-- Modelled from the spec: `UndoStack::appendToCmdGroup` is missing. Executes the command and
appends it to the open group; fails, leaving the group and the board as they are, when no
group is open or when the environment says so. -/
def appendToCmdGroup (m : Machine) (cmd : UndoCommand) : Except Exception CmdResult × Machine :=
  match m.mUndoStack.active with
  | none => (.error .NoCmdGroupActive, m.logCall (.appendToCmdGroup cmd) false)
  | some (saved, cmds) =>
    match m.nextReply.toException with
    | some e => (.error e, m.popReply.logCall (.appendToCmdGroup cmd) false)
    | none =>
      let r := cmd.execute m.popReply
      (.ok r.1, { r.2 with mUndoStack :=
        { committed := m.mUndoStack.committed
          active := some (saved, cmds ++ [cmd])
          calls := m.mUndoStack.calls ++ [(.appendToCmdGroup cmd, true)] } })

/-- Modelled from the spec: `UndoStack::commitCmdGroup` is missing. Closes the open group and
makes it one committed unit; fails when no group is open or when the environment says so. -/
def commitCmdGroup (m : Machine) : Option Exception × Machine :=
  match m.mUndoStack.active with
  | none => (some .NoCmdGroupActive, m.logCall .commitCmdGroup false)
  | some (_, cmds) =>
    match m.nextReply.toException with
    | some e => (some e, m.popReply.logCall .commitCmdGroup false)
    | none =>
      (none, { m.popReply with mUndoStack :=
        { committed := m.mUndoStack.committed ++ [cmds]
          active := none
          calls := m.mUndoStack.calls ++ [(.commitCmdGroup, true)] } })

/-- Modelled from the spec: `UndoStack::abortCmdGroup` is missing. Discards the open group and
rolls the board back to what it was when the group was opened; fails, leaving the group open,
when no group is open or when the environment says so. -/
def abortCmdGroup (m : Machine) : Option Exception × Machine :=
  match m.mUndoStack.active with
  | none => (some .NoCmdGroupActive, m.logCall .abortCmdGroup false)
  | some (saved, _) =>
    match m.nextReply.toException with
    | some e => (some e, m.popReply.logCall .abortCmdGroup false)
    | none =>
      (none, { m.popReply with
        board := saved
        mUndoStack :=
        { committed := m.mUndoStack.committed
          active := none
          calls := m.mUndoStack.calls ++ [(.abortCmdGroup, true)] } })

/-! ## The state machine -/

/-- The call `p->getPosition()` through a pointer member. -/
def Machine.getPosition (m : Machine) (ref : Option Nat) : Option Point :=
  match ref with
  | none => none
  | some id => (m.board.getNetPoint id).map (fun p => p.position)

/-- Source function `BES_DrawTrace::abortPositioning` (lines 447-466). -/
def abortPositioning (m : Machine) (showErrMsgBox : Bool) : Bool × Machine :=
  let m1 : Machine := { m with highlightedNetSignal := none }
  let m2 : Machine := { m1 with ctl := { m1.ctl with
    mSubState := .SubState_Idle
    mFixedNetPoint := none
    mPositioningNetLine1 := none
    mPositioningNetLine2 := none
    mPositioningNetPoint1 := none
    mPositioningNetPoint2 := none } }
  match abortCmdGroup m2 with
  | (none, m3) => (true, m3)
  | (some e, m3) => (false, if showErrMsgBox then m3.critical e else m3)

/-- Source function `BES_DrawTrace::updateNetpointPositions` (lines 468-473). -/
def updateNetpointPositions (m : Machine) (cursorPos : Point) : Option Machine :=
  match m.ctl.mPositioningNetPoint1, m.getPosition m.ctl.mFixedNetPoint with
  | some p1, some fixedPos =>
    match m.board.getNetPoint p1 with
    | none => none
    | some _ =>
      let b1 := m.board.setPosition p1 (calcMiddlePointPos fixedPos cursorPos m.ctl.mCurrentWireMode)
      match m.ctl.mPositioningNetPoint2 with
      | none => none
      | some p2 =>
        match b1.getNetPoint p2 with
        | none => none
        | some _ => some { m with board := b1.setPosition p2 cursorPos }
  | _, _ => none

/-- Source function `BES_DrawTrace::layerComboBoxIndexChanged` (lines 475-479), the slot of
the layer combo box; `layerName` is the item data at the new index. -/
def layerComboBoxIndexChanged (m : Machine) (layerName : Nat) : Machine :=
  { m with ctl := { m.ctl with mCurrentLayerName := layerName } }

/-- The second half of the `try` block of `startPositioning` (lines 347-374), entered once
`mFixedNetPoint` is set. The outcome is the exception thrown, if any, with the state at that
moment. Line 351 selects the layer of the anchor in the layer combo box, whose items are the
copper layers of the board (`entry()`, lines 132-141), among them the layer of every net
point; the combo box answers with its signal `currentIndexChanged`, which runs the slot
`layerComboBoxIndexChanged` with that item (an item that was selected already is the value of
`mCurrentLayerName` already). -/
def startPositioningAddElements (m0 : Machine) (pos : Point) :
    Option (Option Exception × Machine) :=
  match m0.ctl.mFixedNetPoint with
  | none => none
  | some fixedId =>
    match m0.board.getNetPoint fixedId with
    | none => none
    | some fixed =>
      let layer := fixed.layer
      let m := layerComboBoxIndexChanged m0 layer
      let n := m.board.nextId
      let p2 : BI_NetPoint := ⟨n, fixed.netSegment, fixed.netSignal, layer, pos, false⟩
      let l1 : BI_NetLine := ⟨n + 1, fixedId, p2.id, m.ctl.mCurrentWidth, false⟩
      let p3 : BI_NetPoint := ⟨n + 2, fixed.netSegment, fixed.netSignal, layer, pos, false⟩
      let l2 : BI_NetLine := ⟨n + 3, p2.id, p3.id, m.ctl.mCurrentWidth, false⟩
      let cmd := UndoCommand.CmdBoardNetSegmentAddElements fixed.netSegment [p2, p3] [l1, l2]
      let m1 : Machine := { m with board := { m.board with nextId := n + 4 } }
      match appendToCmdGroup m1 cmd with
      | (.error e, m2) => some (some e, m2)
      | (.ok _, m2) =>
        let m3 : Machine := { m2 with ctl := { m2.ctl with
          mPositioningNetPoint1 := some p2.id
          mPositioningNetLine1 := some l1.id
          mPositioningNetPoint2 := some p3.id
          mPositioningNetLine2 := some l2.id } }
        match updateNetpointPositions m3 pos with
        | none => none
        | some m4 => some (none, { m4 with highlightedNetSignal := some fixed.netSignal })

/-- The `try` block of `startPositioning` (lines 327-375). -/
def startPositioningTry (m : Machine) (pos : Point) (fixedPoint : Option Nat) :
    Option (Option Exception × Machine) :=
  if m.ctl.mSubState ≠ .SubState_Idle then none
  else
    match beginCmdGroup m with
    | (some e, m1) => some (some e, m1)
    | (none, m1) =>
      let m2 : Machine := { m1 with ctl := { m1.ctl with mSubState := .SubState_PositioningNetPoint } }
      match fixedPoint with
      | some fp =>
        startPositioningAddElements { m2 with ctl := { m2.ctl with mFixedNetPoint := some fp } } pos
      | none =>
        match m2.board.getLayer m2.ctl.mCurrentLayerName with
        | none => some (some .NoLayerSelected, m2)
        | some layer =>
          match appendToCmdGroup m2 (.CmdPlaceBoardNetPoint pos layer) with
          | (.error e, m3) => some (some e, m3)
          | (.ok r, m3) =>
            startPositioningAddElements
              { m3 with ctl := { m3.ctl with mFixedNetPoint := r.netPoint } } pos

/-- The handler `catch (Exception e)` shared by `startPositioning` (lines 376-383) and by the
second `try` block of `addNextNetPoint` (lines 436-443). -/
def catchAndAbort (e : Exception) (m : Machine) : Bool × Machine :=
  let m1 := m.critical e
  if m1.ctl.mSubState ≠ .SubState_Idle then (false, (abortPositioning m1 false).2)
  else (false, m1)

/-- Source function `BES_DrawTrace::startPositioning` (lines 324-384). -/
def startPositioning (m : Machine) (pos : Point) (fixedPoint : Option Nat) :
    Option (Bool × Machine) :=
  match startPositioningTry m pos fixedPoint with
  | none => none
  | some (none, m1) => some (true, m1)
  | some (some e, m1) => some (catchAndAbort e m1)

/-- The first `try` block of `addNextNetPoint` (lines 397-410): the value of `finishCommand`,
or the exception thrown, with the state at that moment. -/
def addNextNetPointCombine (m : Machine) : Option (Except Exception Bool × Machine) :=
  match m.ctl.mPositioningNetPoint1, m.ctl.mFixedNetPoint, m.ctl.mPositioningNetPoint2 with
  | some p1, some p0, some p2 =>
    match m.board.getNetPoint p1, m.board.getNetPoint p0, m.board.getNetPoint p2 with
    | some np1, some np0, some np2 =>
      let r1 : Except Exception CmdResult × Machine :=
        if np1.position = np0.position then
          appendToCmdGroup m (.CmdCombineBoardNetPoints p1 p0)
        else if np1.position = np2.position then
          appendToCmdGroup m (.CmdCombineBoardNetPoints p1 p2)
        else (.ok ⟨none, false⟩, m)
      match r1 with
      | (.error e, m1) => some (.error e, m1)
      | (.ok _, m1) =>
        match appendToCmdGroup m1 (.CmdCombineAllItemsUnderBoardNetPoint p2) with
        | (.error e, m2) => some (.error e, m2)
        | (.ok r, m2) => some (.ok r.hasCombinedSomeItems, m2)
    | _, _, _ => none
  | _, _, _ => none

/-- The second `try` block of `addNextNetPoint` with its handler (lines 421-443). -/
def addNextNetPointCommit (m : Machine) (pos : Point) (finishCommand : Bool) :
    Option (Bool × Machine) :=
  match commitCmdGroup m with
  | (some e, m1) => some (catchAndAbort e m1)
  | (none, m1) =>
    let m2 : Machine := { m1 with ctl := { m1.ctl with mSubState := .SubState_Idle } }
    if finishCommand then
      match beginCmdGroup m2 with
      | (some e, m3) => some (catchAndAbort e m3)
      | (none, m3) => some (false, (abortPositioning m3 true).2)
    else
      startPositioning m2 pos m2.ctl.mPositioningNetPoint2

/-- Source function `BES_DrawTrace::addNextNetPoint` (lines 386-445). -/
def addNextNetPoint (m : Machine) (pos : Point) : Option (Bool × Machine) :=
  if m.ctl.mSubState ≠ .SubState_PositioningNetPoint then none
  else
    match m.getPosition m.ctl.mFixedNetPoint with
    | none => none
    | some fixedPos =>
      if pos = fixedPos then some (false, (abortPositioning m true).2)
      else
        match addNextNetPointCombine m with
        | none => none
        | some (.error .UserCanceled, m1) => some (false, m1)
        | some (.error e, m1) => some (false, m1.critical e)
        | some (.ok finishCommand, m1) => addNextNetPointCommit m1 pos finishCommand

/-! ## Events -/

/-- The mouse buttons the state distinguishes. -/
inductive MouseButton where
  | LeftButton
  | RightButton
  | OtherButton
deriving DecidableEq, Repr

/-- The scene events forwarded by the graphics view (graphicsview.cpp, `eventFilter`). A
position is the scene position already converted to a board position on the grid
(`Point::fromPx`); a release also carries its screen position and the screen position at
which the right button went down. -/
inductive QEvent where
  | GraphicsSceneMouseDoubleClick (button : MouseButton) (pos : Point)
  | GraphicsSceneMousePress (button : MouseButton) (pos : Point)
  | GraphicsSceneMouseRelease (button : MouseButton) (pos : Point)
      (screenPos : Point) (buttonDownScreenPos : Point)
  | GraphicsSceneMouseMove (pos : Point)
  | Other
deriving DecidableEq, Repr

/-- The events of the board editor that reach this state. -/
inductive BEE_Base where
  | AbortCommand
  | GraphicsViewEvent (qevent : QEvent)
  | Other
deriving DecidableEq, Repr

/-- The return value of an event handler. -/
inductive ProcRetVal where
  | ForceStayInState
  | PassToParentState
deriving DecidableEq, Repr

/-- Source function `BES_DrawTrace::processIdleSceneEvent` (lines 212-242). -/
def processIdleSceneEvent (m : Machine) (qevent : QEvent) : Option (ProcRetVal × Machine) :=
  match qevent with
  | .GraphicsSceneMousePress .LeftButton pos =>
    (startPositioning m pos none).map (fun r => (.ForceStayInState, r.2))
  | _ => some (.PassToParentState, m)

/-- Source function `BES_DrawTrace::processSubStateIdle` (lines 201-210). -/
def processSubStateIdle (m : Machine) (event : BEE_Base) : Option (ProcRetVal × Machine) :=
  match event with
  | .GraphicsViewEvent qevent => processIdleSceneEvent m qevent
  | _ => some (.PassToParentState, m)

/-- The mode after `static_cast<WireMode>(mCurrentWireMode+1)` with the wrap at
`WireMode_COUNT` (lines 295-296). -/
def nextWireMode (mode : WireMode) : WireMode :=
  let n := mode.value + 1
  if n = WireMode_COUNT then WireMode.cast 0 else WireMode.cast n

/-- Source function `BES_DrawTrace::processPositioningSceneEvent` (lines 258-322). -/
def processPositioningSceneEvent (m : Machine) (qevent : QEvent) :
    Option (ProcRetVal × Machine) :=
  match qevent with
  | .GraphicsSceneMouseDoubleClick .LeftButton pos
  | .GraphicsSceneMousePress .LeftButton pos =>
    (addNextNetPoint m pos).map (fun r => (.ForceStayInState, r.2))
  | .GraphicsSceneMouseDoubleClick .RightButton _
  | .GraphicsSceneMousePress .RightButton _ => some (.ForceStayInState, m)
  | .GraphicsSceneMouseRelease .RightButton pos screenPos buttonDownScreenPos =>
    if screenPos = buttonDownScreenPos then
      let m1 : Machine := { m with ctl := { m.ctl with
        mCurrentWireMode := nextWireMode m.ctl.mCurrentWireMode } }
      (updateNetpointPositions m1 pos).map (fun m2 => (.ForceStayInState, m2))
    else some (.PassToParentState, m)
  | .GraphicsSceneMouseMove pos =>
    (updateNetpointPositions m pos).map (fun m1 => (.ForceStayInState, m1))
  | _ => some (.PassToParentState, m)

/-- Source function `BES_DrawTrace::processSubStatePositioning` (lines 244-256). -/
def processSubStatePositioning (m : Machine) (event : BEE_Base) :
    Option (ProcRetVal × Machine) :=
  match event with
  | .AbortCommand => some (.ForceStayInState, (abortPositioning m true).2)
  | .GraphicsViewEvent qevent => processPositioningSceneEvent m qevent
  | _ => some (.PassToParentState, m)

/-- Source function `BES_DrawTrace::process` (lines 81-93). -/
def process (m : Machine) (event : BEE_Base) : Option (ProcRetVal × Machine) :=
  match m.ctl.mSubState with
  | .SubState_Idle => processSubStateIdle m event
  | .SubState_PositioningNetPoint => processSubStatePositioning m event

/-- Processing a sequence of events, one after the other. -/
def processAll (m : Machine) : List BEE_Base → Option Machine
  | [] => some m
  | e :: es =>
    match process m e with
    | none => none
    | some r => processAll r.2 es

/-- The part of `BES_DrawTrace::exit` that concerns the state machine (lines 179-181). -/
def exit (m : Machine) : Machine :=
  if m.ctl.mSubState ≠ .SubState_Idle then (abortPositioning m true).2 else m

/-- The slot connected to a wire mode action of the toolbar in `entry()` (lines 117-122). -/
def wireModeActionTriggered (m : Machine) (mode : WireMode) : Machine :=
  { m with ctl := { m.ctl with mCurrentWireMode := mode } }

/-- Source function `BES_DrawTrace::wireWidthComboBoxTextChanged` (lines 481-487); `width` is `none` when
`Length::fromMm` throws. -/
def wireWidthComboBoxTextChanged (m : Machine) (width : Option Length) : Machine :=
  match width with
  | none => m
  | some w =>
    let m1 : Machine := { m with ctl := { m.ctl with mCurrentWidth := w } }
    if m1.ctl.mSubState ≠ .SubState_PositioningNetPoint then m1
    else
      let b1 := match m1.ctl.mPositioningNetLine1 with
        | some l => m1.board.setWidth l w
        | none => m1.board
      let b2 := match m1.ctl.mPositioningNetLine2 with
        | some l => b1.setWidth l w
        | none => b1
      { m1 with board := b2 }

/-- The state of `BES_DrawTrace` after its constructor (lines 59-70), on a given board and
with a given environment; layer `0` stands for `GraphicsLayer::sTopCopper`. -/
def initialMachine (board : Board) (replies : List Reply) (combineReports : List Bool) :
    Machine :=
  { ctl :=
    { mSubState := .SubState_Idle
      mCurrentWireMode := .WireMode_HV
      mCurrentLayerName := 0
      mCurrentWidth := 500000
      mFixedNetPoint := none
      mPositioningNetLine1 := none
      mPositioningNetPoint1 := none
      mPositioningNetLine2 := none
      mPositioningNetPoint2 := none }
    mUndoStack := { committed := [], active := none, calls := [] }
    board := board
    highlightedNetSignal := none
    msgBoxes := []
    replies := replies
    combineReports := combineReports }

/-- An empty board with the top copper layer. -/
def emptyBoard : Board := { layers := [0], netPoints := [], netLines := [], nextId := 0 }

/-! ## Definitions used to state the theorems -/

/-- The command with which `startPositioning` adds the two speculative points and lines, for
the anchor `fixed`, on a board whose next unused identity is `n`. -/
def addElementsCmd (fixed : BI_NetPoint) (n : Nat) (pos : Point) (width : Length) :
    UndoCommand :=
  .CmdBoardNetSegmentAddElements fixed.netSegment
    [⟨n, fixed.netSegment, fixed.netSignal, fixed.layer, pos, false⟩,
     ⟨n + 2, fixed.netSegment, fixed.netSignal, fixed.layer, pos, false⟩]
    [⟨n + 1, fixed.id, n, width, false⟩, ⟨n + 3, n, n + 2, width, false⟩]

/-- The state in which the second half of `startPositioning` ends when nothing throws, as a
function of the state `m` in which it starts, of the anchor `fixed` and of the open group
`(saved, cmds)`: the current layer name is the layer of the anchor (line 351), the two
speculative points `n`, `n + 2` and lines `n + 1`, `n + 3` are on the board, the mid point at
its computed position and the tail point at `pos`. -/
def startedSession (m : Machine) (fixed : BI_NetPoint) (saved : Board)
    (cmds : List UndoCommand) (pos : Point) : Machine :=
  let n := m.board.nextId
  { ctl := { m.ctl with
      mCurrentLayerName := fixed.layer
      mPositioningNetPoint1 := some n
      mPositioningNetLine1 := some (n + 1)
      mPositioningNetPoint2 := some (n + 2)
      mPositioningNetLine2 := some (n + 3) }
    mUndoStack :=
      { committed := m.mUndoStack.committed
        active := some (saved, cmds ++ [addElementsCmd fixed n pos m.ctl.mCurrentWidth])
        calls := m.mUndoStack.calls ++
          [(.appendToCmdGroup (addElementsCmd fixed n pos m.ctl.mCurrentWidth), true)] }
    board :=
      { layers := m.board.layers
        netPoints := m.board.netPoints ++
          [⟨n, fixed.netSegment, fixed.netSignal, fixed.layer,
              calcMiddlePointPos fixed.position pos m.ctl.mCurrentWireMode, true⟩,
           ⟨n + 2, fixed.netSegment, fixed.netSignal, fixed.layer, pos, true⟩]
        netLines := m.board.netLines ++
          [⟨n + 1, fixed.id, n, m.ctl.mCurrentWidth, true⟩,
           ⟨n + 3, n, n + 2, m.ctl.mCurrentWidth, true⟩]
        nextId := n + 4 }
    highlightedNetSignal := some fixed.netSignal
    msgBoxes := m.msgBoxes
    replies := m.replies.tail
    combineReports := m.combineReports }

/-- The state of `startPositioning` when `beginCmdGroup` has succeeded and the supplied net
point `a` has become the fixed anchor (line 336). -/
def begunSession (m : Machine) (a : Nat) : Machine :=
  { m with
    ctl := { m.ctl with
      mSubState := .SubState_PositioningNetPoint
      mFixedNetPoint := some a }
    mUndoStack :=
      { committed := m.mUndoStack.committed
        active := some (m.board, [])
        calls := m.mUndoStack.calls ++ [(.beginCmdGroup, true)] }
    replies := m.replies.tail }

/-- The net point that `CmdPlaceBoardNetPoint` makes on the board of `m`. -/
def placedNetPoint (m : Machine) (pos : Point) : BI_NetPoint :=
  ⟨m.board.nextId, m.board.nextId + 1, m.board.nextId + 2, m.ctl.mCurrentLayerName, pos, true⟩

/-- The state of `startPositioning` when `beginCmdGroup` has succeeded and a new anchor has
been placed at `pos` on the current layer (lines 338-345). -/
def placedSession (m : Machine) (pos : Point) : Machine :=
  { m with
    ctl := { m.ctl with
      mSubState := .SubState_PositioningNetPoint
      mFixedNetPoint := some m.board.nextId }
    mUndoStack :=
      { committed := m.mUndoStack.committed
        active := some (m.board, [.CmdPlaceBoardNetPoint pos m.ctl.mCurrentLayerName])
        calls := m.mUndoStack.calls ++ [(.beginCmdGroup, true),
          (.appendToCmdGroup (.CmdPlaceBoardNetPoint pos m.ctl.mCurrentLayerName), true)] }
    board := { m.board with
      netPoints := m.board.netPoints ++ [placedNetPoint m pos]
      nextId := m.board.nextId + 3 }
    replies := m.replies.tail.tail }

/-- A number that a `Length` of the program can hold: an integer of `[-2^63, 2^63)`. -/
def Length.representable (z : Int) : Prop :=
  -9223372036854775808 ≤ z ∧ z < 9223372036854775808

/-- The coordinates of `p1` and `p2` are numbers a `Length` can hold, and so are the
differences `p2.x - p1.x`, `p2.y - p1.y` and their absolute values: no operation of
`calcMiddlePointPos p1 p2` wraps. -/
def noWrap (p1 p2 : Point) : Prop :=
  Length.representable p1.x ∧ Length.representable p1.y ∧
  Length.representable p2.x ∧ Length.representable p2.y ∧
  |p2.x - p1.x| < 9223372036854775808 ∧ |p2.y - p1.y| < 9223372036854775808

/-- The point merge that `addNextNetPoint` appends for the mid point `np1`, the anchor `np0`
and the tail point `np2` (lines 399-404): none, or one. -/
def collapseCmds (np1 np0 np2 : BI_NetPoint) : List UndoCommand :=
  if np1.position = np0.position then [.CmdCombineBoardNetPoints np1.id np0.id]
  else if np1.position = np2.position then [.CmdCombineBoardNetPoints np1.id np2.id]
  else []

/-- The board after the point merge of `collapseCmds` has been executed. -/
def collapseBoard (b : Board) (np1 np0 np2 : BI_NetPoint) : Board :=
  if np1.position = np0.position then combineNetPoints b np1.id np0.id
  else if np1.position = np2.position then combineNetPoints b np1.id np2.id
  else b

/-- No coming call of the undo stack is made to fail by the environment. -/
def NoFailure (replies : List Reply) : Prop := ∀ r ∈ replies, r = Reply.ok

/-! ## Example states -/

/-- A press of the left button at `pos`. -/
def leftPress (pos : Point) : BEE_Base :=
  .GraphicsViewEvent (.GraphicsSceneMousePress .LeftButton pos)

/-- A pointer move to `pos`. -/
def mouseMove (pos : Point) : BEE_Base :=
  .GraphicsViewEvent (.GraphicsSceneMouseMove pos)

/-- The state reached from the constructor state on the empty board by the given events, or
the constructor state when the events have no defined behaviour. -/
def runEvents (replies : List Reply) (reports : List Bool) (events : List BEE_Base) : Machine :=
  (processAll (initialMachine emptyBoard replies reports) events).getD
    (initialMachine emptyBoard replies reports)

/-- The session reached on the empty board by a left press at `(0,0)` and a move to `cursor`.
The three undo stack calls of the start (begin, place the anchor, add the elements) succeed;
`replies` and `reports` are the answers of the environment after that. The anchor is net
point `0`, the mid point `3`, the tail point `5`, the lines `4` and `6`. -/
def demoSession (cursor : Point) (replies : List Reply) (reports : List Bool) : Machine :=
  runEvents (.ok :: .ok :: .ok :: replies) reports [leftPress ⟨0, 0⟩, mouseMove cursor]

/-- The result of an operation of the controller, or `(false, m)` when it has no defined
behaviour. -/
def resultOr (r : Option (Bool × Machine)) (m : Machine) : Bool × Machine := r.getD (false, m)

/-- A release of the right button at board position `pos` whose screen position is
`screenPos` and whose press was at screen position `buttonDownScreenPos`. -/
def rightRelease (pos screenPos buttonDownScreenPos : Point) : BEE_Base :=
  .GraphicsViewEvent (.GraphicsSceneMouseRelease .RightButton pos screenPos buttonDownScreenPos)

/-- A board without any layer, on which no layer name resolves. -/
def noLayerBoard : Board := { layers := [], netPoints := [], netLines := [], nextId := 0 }

theorem Length.wrap_of_representable (z : Int) (h : Length.representable z) :
    Length.wrap z = z := by
  unfold Length.representable at h
  unfold Length.wrap Length
  omega

theorem Length.abs_eq_abs (l : Length) (h : |l| < 9223372036854775808) :
    Length.abs l = |l| := by
  have h0 := abs_nonneg l
  unfold Length.abs
  split_ifs with hl
  · rw [abs_of_neg hl] at h h0 ⊢
    exact Length.wrap_of_representable _ ⟨by unfold Length at *; omega, h⟩
  · rw [abs_of_nonneg (not_lt.mp hl)] at h h0 ⊢
    exact Length.wrap_of_representable _ ⟨by unfold Length at *; omega, h⟩

/-- Where nothing wraps, `calcMiddlePointPos` is the table of spec section 4.2. -/
theorem calcMiddlePointPos_of_noWrap (p1 p2 : Point) (mode : WireMode) (h : noWrap p1 p2) :
    calcMiddlePointPos p1 p2 mode = specMidpoint p1 p2 mode := by
  obtain ⟨x1, y1⟩ := p1
  obtain ⟨x2, y2⟩ := p2
  obtain ⟨hx1, hy1, hx2, hy2, hdx, hdy⟩ := h
  simp only [Length.representable] at hx1 hy1 hx2 hy2 hdx hdy
  have hwx : Length.wrap (x2 - x1) = x2 - x1 :=
    Length.wrap_of_representable _ ⟨by have := neg_abs_le (x2 - x1); unfold Length at *; omega,
      lt_of_le_of_lt (le_abs_self _) hdx⟩
  have hwy : Length.wrap (y2 - y1) = y2 - y1 :=
    Length.wrap_of_representable _ ⟨by have := neg_abs_le (y2 - y1); unfold Length at *; omega,
      lt_of_le_of_lt (le_abs_self _) hdy⟩
  have hax := Length.abs_eq_abs (x2 - x1) hdx
  have hay := Length.abs_eq_abs (y2 - y1) hdy
  have hcx := abs_cases (x2 - x1)
  have hcy := abs_cases (y2 - y1)
  cases mode
  case WireMode_HV => rfl
  case WireMode_VH => rfl
  case WireMode_Straight => rfl
  all_goals
    simp only [calcMiddlePointPos, specMidpoint, Point.sub, Length.sub, Length.add, Length.mul,
      hwx, hwy, hax, hay, specSign, ge_iff_le]
    split_ifs
    all_goals simp only [Point.mk.injEq, and_true, true_and]
    all_goals
      generalize |x2 - x1| = ax at *
      generalize |y2 - y1| = ay at *
      unfold Length.wrap
      unfold Length at *
      omega

theorem find?_id_eq_none_of_lt (l : List BI_NetPoint) (n id : Nat)
    (h : ∀ p ∈ l, p.id < n) (hn : n ≤ id) :
    l.find? (fun p => p.id == id) = none := by
  rw [List.find?_eq_none]
  intro p hp
  have := h p hp
  simp only [beq_iff_eq]
  omega

theorem find?_line_eq_none_of_lt (l : List BI_NetLine) (n id : Nat)
    (h : ∀ p ∈ l, p.id < n) (hn : n ≤ id) :
    l.find? (fun p => p.id == id) = none := by
  rw [List.find?_eq_none]
  intro p hp
  have := h p hp
  simp only [beq_iff_eq]
  omega

theorem map_setPosition_of_lt (l : List BI_NetPoint) (n id : Nat) (pos : Point)
    (h : ∀ p ∈ l, p.id < n) (hn : n ≤ id) :
    l.map (fun p => if p.id = id then { p with position := pos } else p) = l := by
  conv_rhs => rw [← List.map_id l]
  apply List.map_congr_left
  intro p hp
  have := h p hp
  have hne : p.id ≠ id := by omega
  simp [hne]

theorem getNetPoint_id {b : Board} {id : Nat} {p : BI_NetPoint}
    (h : b.getNetPoint id = some p) : p.id = id := by
  have := List.find?_some h
  simpa using this

theorem getNetPoint_mem {b : Board} {id : Nat} {p : BI_NetPoint}
    (h : b.getNetPoint id = some p) : p ∈ b.netPoints :=
  List.mem_of_find?_eq_some h

theorem catchAndAbort_fst (e : Exception) (m : Machine) : (catchAndAbort e m).1 = false := by
  simp only [catchAndAbort]
  split_ifs <;> rfl

theorem Reply.next_cases (rs : List Reply) :
    Reply.next rs = Reply.ok ∨ ∃ e, (Reply.next rs).toException = some e := by
  cases h : Reply.next rs
  · exact Or.inl rfl
  · exact Or.inr ⟨_, rfl⟩
  · exact Or.inr ⟨_, rfl⟩

theorem Reply.toException_ok : Reply.toException Reply.ok = none := rfl

theorem drop_two_eq {α : Type} (l : List α) : l.drop 2 = l.tail.tail := by
  cases l with
  | nil => rfl
  | cons a l => cases l <;> rfl

/-! ## The wire mode calculator -/

/-- C1 (amended): for points whose coordinates are 64-bit numbers and whose differences
`p2.x - p1.x`, `p2.y - p1.y` have absolute values below `2^63` (`noWrap`), and for each of
the five wire modes, `calcMiddlePointPos` equals the table of spec section 4.2
(`specMidpoint`, with `sign(0) = +1`); in the modes HV, VH and Straight, which do no
arithmetic, it equals the table for all points; a tie `|dx| = |dy|` takes the `|dx| ≥ |dy|`
branch, so `(0,0)`, `(5,5)` in mode 9045 gives `(0,0)`. -/
theorem calcMiddlePointPos_eq_specMidpoint (p1 p2 : Point) :
    (noWrap p1 p2 → ∀ mode, calcMiddlePointPos p1 p2 mode = specMidpoint p1 p2 mode) ∧
    (∀ mode, mode ≠ .WireMode_9045 → mode ≠ .WireMode_4590 →
      calcMiddlePointPos p1 p2 mode = specMidpoint p1 p2 mode) ∧
    calcMiddlePointPos ⟨0, 0⟩ ⟨5, 5⟩ .WireMode_9045 = ⟨0, 0⟩ := by
  refine ⟨fun h mode => calcMiddlePointPos_of_noWrap p1 p2 mode h, ?_, by decide⟩
  intro mode h1 h2
  cases mode
  case WireMode_9045 => exact absurd rfl h1
  case WireMode_4590 => exact absurd rfl h2
  all_goals rfl

/-- C1 fails as stated for coordinates near the ends of the 64-bit range: the points
`(-6·10^18, 0)` and `(6·10^18, 1)` hold 64-bit coordinates, but the difference of their `x`
coordinates wraps to a negative number, so in mode 9045 `calcMiddlePointPos` returns
`x = 6·10^18 + 1` where the table of spec section 4.2 gives `6·10^18 - 1`. -/
theorem calcMiddlePointPos_wraps :
    (Length.representable (-6000000000000000000) ∧ Length.representable 0 ∧
      Length.representable 6000000000000000000 ∧ Length.representable 1) ∧
    Point.sub ⟨6000000000000000000, 1⟩ ⟨-6000000000000000000, 0⟩
      = ⟨-6446744073709551616, 1⟩ ∧
    calcMiddlePointPos ⟨-6000000000000000000, 0⟩ ⟨6000000000000000000, 1⟩ .WireMode_9045
      = ⟨6000000000000000001, 0⟩ ∧
    specMidpoint ⟨-6000000000000000000, 0⟩ ⟨6000000000000000000, 1⟩ .WireMode_9045
      = ⟨5999999999999999999, 0⟩ := by
  refine ⟨by unfold Length.representable; decide, by decide, by decide, ?_⟩
  simp only [specMidpoint, specSign]
  norm_num

/-- An instance of `calcMiddlePointPos_eq_specMidpoint`: the points `(0,0)` and `(5,5)`. -/
theorem calcMiddlePointPos_eq_specMidpoint_witness :
    noWrap ⟨0, 0⟩ ⟨5, 5⟩ ∧
    ∀ mode, calcMiddlePointPos ⟨0, 0⟩ ⟨5, 5⟩ mode = specMidpoint ⟨0, 0⟩ ⟨5, 5⟩ mode :=
  have h : noWrap ⟨0, 0⟩ ⟨5, 5⟩ := by
    unfold noWrap Length.representable
    norm_num
  ⟨h, (calcMiddlePointPos_eq_specMidpoint ⟨0, 0⟩ ⟨5, 5⟩).1 h⟩

/-! ## Aborting -/

/-- The members of the controller after `abortPositioning`. -/
theorem abortPositioning_ctl (m : Machine) (showErrMsgBox : Bool) :
    (abortPositioning m showErrMsgBox).2.ctl =
      { m.ctl with
        mSubState := .SubState_Idle
        mFixedNetPoint := none
        mPositioningNetLine1 := none
        mPositioningNetLine2 := none
        mPositioningNetPoint1 := none
        mPositioningNetPoint2 := none } ∧
    (abortPositioning m showErrMsgBox).2.highlightedNetSignal = none := by
  rcases m with ⟨ctl, ⟨committed, active, calls⟩, board, hl, mb, replies, cr⟩
  rcases active with _ | ⟨saved, cmds⟩
  · cases showErrMsgBox <;>
      simp [abortPositioning, abortCmdGroup, Machine.logCall, Machine.critical]
  · rcases Reply.next_cases replies with h | ⟨e, h⟩
    · simp [abortPositioning, abortCmdGroup, Machine.nextReply, h, Reply.toException_ok,
        Machine.popReply]
    · cases showErrMsgBox <;>
        simp [abortPositioning, abortCmdGroup, Machine.nextReply, h, Machine.logCall,
          Machine.critical, Machine.popReply]

/-- The whole state after an `abortPositioning` whose `abortCmdGroup` succeeds. -/
theorem abortPositioning_of_ok (m : Machine) (showErrMsgBox : Bool) (saved : Board)
    (cmds : List UndoCommand) (ha : m.mUndoStack.active = some (saved, cmds))
    (hr : Reply.next m.replies = Reply.ok) :
    abortPositioning m showErrMsgBox = (true,
      { ctl := { m.ctl with
          mSubState := .SubState_Idle
          mFixedNetPoint := none
          mPositioningNetLine1 := none
          mPositioningNetLine2 := none
          mPositioningNetPoint1 := none
          mPositioningNetPoint2 := none }
        mUndoStack :=
          { committed := m.mUndoStack.committed
            active := none
            calls := m.mUndoStack.calls ++ [(.abortCmdGroup, true)] }
        board := saved
        highlightedNetSignal := none
        msgBoxes := m.msgBoxes
        replies := m.replies.tail
        combineReports := m.combineReports }) := by
  rcases m with ⟨ctl, ⟨committed, active, calls⟩, board, hl, mb, replies, cr⟩
  simp only at ha hr
  subst ha
  simp [abortPositioning, abortCmdGroup, Machine.nextReply, hr, Reply.toException_ok,
    Machine.popReply]

/-- The whole state after an `abortPositioning` whose `abortCmdGroup` throws `e`. -/
theorem abortPositioning_of_error (m : Machine) (showErrMsgBox : Bool) (e : Exception)
    (h : (m.mUndoStack.active = none ∧ e = .NoCmdGroupActive) ∨
      (m.mUndoStack.active ≠ none ∧ (Reply.next m.replies).toException = some e)) :
    abortPositioning m showErrMsgBox = (false,
      { ctl := { m.ctl with
          mSubState := .SubState_Idle
          mFixedNetPoint := none
          mPositioningNetLine1 := none
          mPositioningNetLine2 := none
          mPositioningNetPoint1 := none
          mPositioningNetPoint2 := none }
        mUndoStack :=
          { committed := m.mUndoStack.committed
            active := m.mUndoStack.active
            calls := m.mUndoStack.calls ++ [(.abortCmdGroup, false)] }
        board := m.board
        highlightedNetSignal := none
        msgBoxes := if showErrMsgBox then m.msgBoxes ++ [e] else m.msgBoxes
        replies := if m.mUndoStack.active = none then m.replies else m.replies.tail
        combineReports := m.combineReports }) := by
  rcases m with ⟨ctl, ⟨committed, active, calls⟩, board, hl, mb, replies, cr⟩
  rcases h with ⟨ha, he⟩ | ⟨ha, he⟩
  · simp only at ha
    subst ha he
    cases showErrMsgBox <;>
      simp [abortPositioning, abortCmdGroup, Machine.logCall, Machine.critical]
  · rcases active with _ | ⟨saved, cmds⟩
    · simp at ha
    · simp only at he
      cases showErrMsgBox <;>
        simp [abortPositioning, abortCmdGroup, Machine.nextReply, he, Machine.logCall,
          Machine.critical, Machine.popReply]

/-- C8: for every state and both values of `showErrMsgBox`, `abortPositioning` leaves the
sub-state Idle, no net signal highlighted and the anchor and the four speculative references
empty (the statement covers the states and environments in which `abortCmdGroup` throws as
well as those in which it succeeds); a second call leaves the members of the controller and
the highlight exactly as the first call left them. -/
theorem abortPositioning_idle_and_redundant (m : Machine) (showErrMsgBox again : Bool) :
    (abortPositioning m showErrMsgBox).2.ctl.mSubState = .SubState_Idle ∧
    (abortPositioning m showErrMsgBox).2.highlightedNetSignal = none ∧
    (abortPositioning m showErrMsgBox).2.ctl.mFixedNetPoint = none ∧
    (abortPositioning m showErrMsgBox).2.ctl.mPositioningNetLine1 = none ∧
    (abortPositioning m showErrMsgBox).2.ctl.mPositioningNetPoint1 = none ∧
    (abortPositioning m showErrMsgBox).2.ctl.mPositioningNetLine2 = none ∧
    (abortPositioning m showErrMsgBox).2.ctl.mPositioningNetPoint2 = none ∧
    (abortPositioning (abortPositioning m showErrMsgBox).2 again).2.ctl =
      (abortPositioning m showErrMsgBox).2.ctl ∧
    (abortPositioning (abortPositioning m showErrMsgBox).2 again).2.highlightedNetSignal =
      (abortPositioning m showErrMsgBox).2.highlightedNetSignal := by
  have h1 := abortPositioning_ctl m showErrMsgBox
  have h2 := abortPositioning_ctl (abortPositioning m showErrMsgBox).2 again
  refine ⟨?_, h1.2, ?_, ?_, ?_, ?_, ?_, ?_, ?_⟩
  · rw [h1.1]
  · rw [h1.1]
  · rw [h1.1]
  · rw [h1.1]
  · rw [h1.1]
  · rw [h1.1]
  · rw [h2.1, h1.1]
  · rw [h2.2, h1.2]

/-! ## Clicking at the anchor -/

/-- C3 (amended): in a Positioning session, a click at the position of the fixed anchor
appends no edit and commits nothing, asks the undo stack exactly once to discard the open
group, ends in Idle and returns failure. If that discard succeeds, the group is gone, the
board is the one saved when the group was opened and no error is shown; if it throws, the
group stays open, the board is unchanged and the error is shown. -/
theorem addNextNetPoint_at_anchor (m : Machine) (pos : Point)
    (hsub : m.ctl.mSubState = .SubState_PositioningNetPoint)
    (hpos : m.getPosition m.ctl.mFixedNetPoint = some pos) :
    ∃ m' ok, addNextNetPoint m pos = some (false, m') ∧
      m'.ctl.mSubState = .SubState_Idle ∧
      m'.mUndoStack.committed = m.mUndoStack.committed ∧
      m'.mUndoStack.calls = m.mUndoStack.calls ++ [(.abortCmdGroup, ok)] ∧
      (ok = true ↔ m.mUndoStack.active ≠ none ∧ m.nextReply = .ok) ∧
      (ok = true → m'.mUndoStack.active = none ∧ m'.msgBoxes = m.msgBoxes ∧
        ∀ saved cmds, m.mUndoStack.active = some (saved, cmds) → m'.board = saved) ∧
      (ok = false → m'.mUndoStack.active = m.mUndoStack.active ∧ m'.board = m.board ∧
        ∃ e, m'.msgBoxes = m.msgBoxes ++ [e]) := by
  have hres : addNextNetPoint m pos = some (false, (abortPositioning m true).2) := by
    simp [addNextNetPoint, hsub, hpos]
  rcases hact : m.mUndoStack.active with _ | ⟨saved, cmds⟩
  · refine ⟨_, false, hres, ?_⟩
    rw [abortPositioning_of_error m true .NoCmdGroupActive (Or.inl ⟨hact, rfl⟩)]
    simp [hact]
  · rcases Reply.next_cases m.replies with h | ⟨e, h⟩
    · refine ⟨_, true, hres, ?_⟩
      rw [abortPositioning_of_ok m true saved cmds hact h]
      simp [Machine.nextReply, h]
    · refine ⟨_, false, hres, ?_⟩
      rw [abortPositioning_of_error m true e (Or.inr ⟨by simp [hact], h⟩)]
      have hne : Reply.next m.replies ≠ Reply.ok := by
        intro hc
        rw [hc] at h
        simp [Reply.toException_ok] at h
      simp [hact, Machine.nextReply, hne]

/-! ## Starting a session -/

/-- The second half of `startPositioning` when the append succeeds. -/
theorem startPositioningAddElements_of_ok (m : Machine) (pos : Point) (fixed : BI_NetPoint)
    (saved : Board) (cmds : List UndoCommand)
    (hf : m.ctl.mFixedNetPoint = some fixed.id)
    (hg : m.board.getNetPoint fixed.id = some fixed)
    (hact : m.mUndoStack.active = some (saved, cmds))
    (hr : Reply.next m.replies = .ok)
    (hwf : ∀ p ∈ m.board.netPoints, p.id < m.board.nextId) :
    startPositioningAddElements m pos = some (none, startedSession m fixed saved cmds pos) := by
  rcases m with ⟨ctl, ⟨committed, active, calls⟩, board, hl, mb, replies, cr⟩
  simp only at hf hg hact hr hwf
  subst hact
  have hlt : fixed.id < board.nextId := hwf _ (getNetPoint_mem hg)
  have hne : ¬ (fixed.id = board.nextId) := by omega
  have hne2 : ¬ (fixed.id = board.nextId + 2) := by omega
  have hg' := hg
  simp only [Board.getNetPoint] at hg'
  simp [startPositioningAddElements, layerComboBoxIndexChanged, startedSession,
    addElementsCmd, hf, hg, appendToCmdGroup, hr, Reply.toException_ok, UndoCommand.execute, Machine.nextReply,
    updateNetpointPositions, Machine.getPosition, Machine.popReply, Board.getNetPoint,
    Board.setPosition, List.find?_append, hg', hne, hne2,
    find?_id_eq_none_of_lt _ _ _ hwf (Nat.le_refl _),
    find?_id_eq_none_of_lt _ _ _ hwf (Nat.le_add_right _ 2),
    map_setPosition_of_lt _ _ _ _ hwf (Nat.le_refl _),
    map_setPosition_of_lt _ _ _ _ hwf (Nat.le_add_right _ 2)]

/-- The second half of `startPositioning` ends without an exception only if a group is open
and the environment lets the append succeed. -/
theorem startPositioningAddElements_inv (m : Machine) (pos : Point) (m' : Machine)
    (h : startPositioningAddElements m pos = some (none, m')) :
    ∃ fixed saved cmds, m.ctl.mFixedNetPoint = some fixed.id ∧
      m.board.getNetPoint fixed.id = some fixed ∧
      m.mUndoStack.active = some (saved, cmds) ∧ Reply.next m.replies = .ok := by
  rcases m with ⟨ctl, ⟨committed, active, calls⟩, board, hl, mb, replies, cr⟩
  simp only [startPositioningAddElements] at h
  cases hf : ctl.mFixedNetPoint with
  | none => simp [hf] at h
  | some a =>
    cases hg : board.getNetPoint a with
    | none => simp [hf, hg] at h
    | some fixed =>
      have hid : fixed.id = a := getNetPoint_id hg
      subst hid
      rcases active with _ | ⟨saved, cmds⟩
      · simp [hf, hg, appendToCmdGroup, layerComboBoxIndexChanged] at h
      · rcases Reply.next_cases replies with hr | ⟨e, hr⟩
        · exact ⟨fixed, saved, cmds, rfl, hg, rfl, hr⟩
        · simp [hf, hg, appendToCmdGroup, layerComboBoxIndexChanged, Machine.nextReply, hr] at h

/-- What a successful `startPositioning` has done: from Idle, with no group open, it has left
the state `startedSession` built on the supplied anchor or on a newly placed one. -/
theorem startPositioning_true_inv (m : Machine) (pos : Point) (fixedPoint : Option Nat)
    (m' : Machine) (hwf : m.board.WF)
    (h : startPositioning m pos fixedPoint = some (true, m')) :
    m.ctl.mSubState = .SubState_Idle ∧ m.mUndoStack.active = none ∧
    ((∃ a fixed, fixedPoint = some a ∧ fixed.id = a ∧ m.board.getNetPoint a = some fixed ∧
        m' = startedSession (begunSession m a) fixed m.board [] pos) ∨
     (fixedPoint = none ∧ m.ctl.mCurrentLayerName ∈ m.board.layers ∧
        m' = startedSession (placedSession m pos) (placedNetPoint m pos) m.board
          [.CmdPlaceBoardNetPoint pos m.ctl.mCurrentLayerName] pos)) := by
  have htry : startPositioningTry m pos fixedPoint = some (none, m') := by
    cases hc : startPositioningTry m pos fixedPoint with
    | none => simp [startPositioning, hc] at h
    | some r =>
      obtain ⟨oe, m1⟩ := r
      cases oe with
      | none =>
        simp only [startPositioning, hc, Option.some.injEq, Prod.mk.injEq, true_and] at h
        rw [h]
      | some e =>
        simp only [startPositioning, hc, Option.some.injEq] at h
        have := catchAndAbort_fst e m1
        rw [h] at this
        simp at this
  clear h
  obtain ⟨hwfp, hwfl⟩ := hwf
  rcases m with ⟨ctl, ⟨committed, active, calls⟩, board, hl, mb, replies, cr⟩
  simp only at hwfp hwfl
  simp only [startPositioningTry] at htry
  by_cases hsub : ctl.mSubState = .SubState_Idle
  swap
  · simp [hsub] at htry
  rcases active with _ | ⟨saved0, cmds0⟩
  swap
  · simp [hsub, beginCmdGroup] at htry
  rcases Reply.next_cases replies with hr | ⟨e, hr⟩
  swap
  · simp [hsub, beginCmdGroup, Machine.nextReply, hr] at htry
  refine ⟨hsub, rfl, ?_⟩
  cases fixedPoint with
  | some a =>
    left
    simp only [hsub, beginCmdGroup, Machine.nextReply, hr, Reply.toException_ok,
      Machine.popReply, ne_eq, not_true_eq_false, ↓reduceIte] at htry
    obtain ⟨fixed, saved, cmds, hf, hg, hact, hr2⟩ := startPositioningAddElements_inv _ _ _ htry
    have hfw := startPositioningAddElements_of_ok _ pos fixed saved cmds hf hg hact hr2 hwfp
    rw [hfw] at htry
    simp only [Option.some.injEq, Prod.mk.injEq, true_and] at htry hf hact
    refine ⟨a, fixed, rfl, hf.symm, by rw [hf]; exact hg, ?_⟩
    rw [← htry, ← hact.1, ← hact.2]
    rfl
  | none =>
    right
    by_cases hlayer : ctl.mCurrentLayerName ∈ board.layers
    swap
    · simp [hsub, beginCmdGroup, Machine.nextReply, hr, Reply.toException_ok,
        Machine.popReply, Board.getLayer, hlayer] at htry
    rcases Reply.next_cases replies.tail with hr1 | ⟨e, hr1⟩
    swap
    · simp [hsub, beginCmdGroup, Machine.nextReply, hr, Reply.toException_ok,
        Machine.popReply, Board.getLayer, hlayer, appendToCmdGroup, hr1] at htry
    simp only [hsub, beginCmdGroup, Machine.nextReply, hr, Reply.toException_ok,
      Machine.popReply, Board.getLayer, hlayer, appendToCmdGroup, hr1, UndoCommand.execute,
      ne_eq, not_true_eq_false, ↓reduceIte, List.nil_append] at htry
    have hM : ∀ M, M = placedSession
        ⟨ctl, ⟨committed, none, calls⟩, board, hl, mb, replies, cr⟩ pos →
        startPositioningAddElements M pos = some (none, m') →
        m' = startedSession (placedSession
          ⟨ctl, ⟨committed, none, calls⟩, board, hl, mb, replies, cr⟩ pos)
          (placedNetPoint ⟨ctl, ⟨committed, none, calls⟩, board, hl, mb, replies, cr⟩ pos) board
          [.CmdPlaceBoardNetPoint pos ctl.mCurrentLayerName] pos := by
      intro M hMeq hrun
      subst hMeq
      obtain ⟨fixed, saved, cmds, hf, hg, hact, hr2⟩ := startPositioningAddElements_inv _ _ _ hrun
      have hwfp' : ∀ p ∈ (placedSession
          ⟨ctl, ⟨committed, none, calls⟩, board, hl, mb, replies, cr⟩ pos).board.netPoints,
          p.id < (placedSession
          ⟨ctl, ⟨committed, none, calls⟩, board, hl, mb, replies, cr⟩ pos).board.nextId := by
        intro p hp
        simp only [placedSession] at hp ⊢
        rcases List.mem_append.mp hp with hp | hp
        · have := hwfp p hp
          omega
        · simp only [List.mem_singleton] at hp
          subst hp
          simp [placedNetPoint]
      have hfind : (placedSession
          ⟨ctl, ⟨committed, none, calls⟩, board, hl, mb, replies, cr⟩ pos).board.getNetPoint
          board.nextId = some (placedNetPoint
          ⟨ctl, ⟨committed, none, calls⟩, board, hl, mb, replies, cr⟩ pos) := by
        simp [placedSession, Board.getNetPoint, List.find?_append, placedNetPoint,
          find?_id_eq_none_of_lt _ _ _ hwfp (Nat.le_refl _)]
      have hfw := startPositioningAddElements_of_ok (placedSession
        ⟨ctl, ⟨committed, none, calls⟩, board, hl, mb, replies, cr⟩ pos) pos
        (placedNetPoint ⟨ctl, ⟨committed, none, calls⟩, board, hl, mb, replies, cr⟩ pos) board
        [.CmdPlaceBoardNetPoint pos ctl.mCurrentLayerName] rfl hfind rfl hr2 hwfp'
      rw [hfw] at hrun
      simpa using hrun.symm
    refine ⟨rfl, hlayer, hM _ ?_ htry⟩
    simp [placedSession, placedNetPoint]

/-- C2: every successful `startPositioning` (with or without a supplied anchor) at cursor
position `pos` starts from Idle and ends in Positioning with exactly two speculative points
and two speculative lines newly on the board: line 1 joins the fixed anchor to the mid point,
line 2 joins the mid point to the tail point, both points are on the layer and in the net
segment of the anchor, both lines have the current width, the mid point is at
`calcMiddlePointPos (anchor position) pos (current mode)` and the tail point is at `pos`. -/
theorem startPositioning_starts_session (m : Machine) (pos : Point)
    (fixedPoint : Option Nat) (m' : Machine) (hwf : m.board.WF)
    (h : startPositioning m pos fixedPoint = some (true, m')) :
    m.ctl.mSubState = .SubState_Idle ∧
    m'.ctl.mSubState = .SubState_PositioningNetPoint ∧
    ∃ fixed p1 p2 l1 l2,
      m'.ctl.mFixedNetPoint = some fixed.id ∧ m'.board.getNetPoint fixed.id = some fixed ∧
      (∀ a, fixedPoint = some a → fixed.id = a ∧ m.board.getNetPoint a = some fixed) ∧
      m'.ctl.mPositioningNetPoint1 = some p1.id ∧ m'.board.getNetPoint p1.id = some p1 ∧
      m'.ctl.mPositioningNetPoint2 = some p2.id ∧ m'.board.getNetPoint p2.id = some p2 ∧
      m'.ctl.mPositioningNetLine1 = some l1.id ∧ m'.board.getNetLine l1.id = some l1 ∧
      m'.ctl.mPositioningNetLine2 = some l2.id ∧ m'.board.getNetLine l2.id = some l2 ∧
      fixed.id ≠ p1.id ∧ fixed.id ≠ p2.id ∧ p1.id ≠ p2.id ∧ l1.id ≠ l2.id ∧
      l1.startPoint = fixed.id ∧ l1.endPoint = p1.id ∧
      l2.startPoint = p1.id ∧ l2.endPoint = p2.id ∧
      p1.layer = fixed.layer ∧ p2.layer = fixed.layer ∧
      p1.netSegment = fixed.netSegment ∧ p2.netSegment = fixed.netSegment ∧
      l1.width = m.ctl.mCurrentWidth ∧ l2.width = m.ctl.mCurrentWidth ∧
      p1.position = calcMiddlePointPos fixed.position pos m.ctl.mCurrentWireMode ∧
      p2.position = pos ∧
      p1.isAddedToBoard = true ∧ p2.isAddedToBoard = true ∧
      l1.isAddedToBoard = true ∧ l2.isAddedToBoard = true ∧
      m'.board.netLines = m.board.netLines ++ [l1, l2] ∧
      (m'.board.netPoints = m.board.netPoints ++ [p1, p2] ∨
        (fixedPoint = none ∧ m'.board.netPoints = m.board.netPoints ++ [fixed, p1, p2])) := by
  obtain ⟨hsub, _, hcase⟩ := startPositioning_true_inv m pos fixedPoint m' hwf h
  obtain ⟨hwfp, hwfl⟩ := hwf
  refine ⟨hsub, ?_⟩
  rcases hcase with ⟨a, fixed, hfp, hid, hg, hm'⟩ | ⟨hfp, _, hm'⟩
  · subst hm' hid
    have hlt : fixed.id < m.board.nextId := hwfp _ (getNetPoint_mem hg)
    have hg' := hg
    simp only [Board.getNetPoint] at hg'
    refine ⟨rfl, fixed,
      ⟨m.board.nextId, fixed.netSegment, fixed.netSignal, fixed.layer,
        calcMiddlePointPos fixed.position pos m.ctl.mCurrentWireMode, true⟩,
      ⟨m.board.nextId + 2, fixed.netSegment, fixed.netSignal, fixed.layer, pos, true⟩,
      ⟨m.board.nextId + 1, fixed.id, m.board.nextId, m.ctl.mCurrentWidth, true⟩,
      ⟨m.board.nextId + 3, m.board.nextId, m.board.nextId + 2, m.ctl.mCurrentWidth, true⟩, ?_⟩
    simp [startedSession, begunSession, Board.getNetPoint, Board.getNetLine,
      List.find?_append, hg', hfp,
      find?_id_eq_none_of_lt _ _ _ hwfp (Nat.le_refl _),
      find?_id_eq_none_of_lt _ _ _ hwfp (Nat.le_add_right _ 2),
      find?_line_eq_none_of_lt _ _ _ hwfl (Nat.le_add_right _ 1),
      find?_line_eq_none_of_lt _ _ _ hwfl (Nat.le_add_right _ 3)]
    omega
  · subst hm' hfp
    refine ⟨rfl, placedNetPoint m pos,
      ⟨m.board.nextId + 3, m.board.nextId + 1, m.board.nextId + 2, m.ctl.mCurrentLayerName,
        calcMiddlePointPos pos pos m.ctl.mCurrentWireMode, true⟩,
      ⟨m.board.nextId + 3 + 2, m.board.nextId + 1, m.board.nextId + 2, m.ctl.mCurrentLayerName,
        pos, true⟩,
      ⟨m.board.nextId + 3 + 1, m.board.nextId, m.board.nextId + 3, m.ctl.mCurrentWidth, true⟩,
      ⟨m.board.nextId + 3 + 3, m.board.nextId + 3, m.board.nextId + 3 + 2, m.ctl.mCurrentWidth,
        true⟩, ?_⟩
    simp [startedSession, placedSession, placedNetPoint, Board.getNetPoint, Board.getNetLine,
      List.find?_append,
      find?_id_eq_none_of_lt _ _ _ hwfp (Nat.le_refl _),
      find?_id_eq_none_of_lt _ _ _ hwfp (Nat.le_add_right _ 3),
      find?_id_eq_none_of_lt _ _ _ hwfp (Nat.le_add_right _ (3 + 2)),
      find?_line_eq_none_of_lt _ _ _ hwfl (Nat.le_add_right _ (3 + 1)),
      find?_line_eq_none_of_lt _ _ _ hwfl (Nat.le_add_right _ (3 + 3))]
    omega

/-! ## Moving the cursor -/

theorem getNetPoint_map (b : Board) (f : BI_NetPoint → BI_NetPoint)
    (hf : ∀ q, (f q).id = q.id) (j : Nat) :
    ({ b with netPoints := b.netPoints.map f } : Board).getNetPoint j
      = (b.getNetPoint j).map f := by
  simp only [Board.getNetPoint, List.find?_map]
  congr 2
  funext q
  simp [hf]

theorem getPosition_isSome_map (m : Machine) (f : BI_NetPoint → BI_NetPoint)
    (hf : ∀ q, (f q).id = q.id) (ref : Option Nat)
    (h : (m.getPosition ref).isSome) :
    (Machine.getPosition { m with board := { m.board with netPoints := m.board.netPoints.map f } }
      ref).isSome := by
  cases ref with
  | none => simp [Machine.getPosition] at h
  | some a =>
    simp only [Machine.getPosition, getNetPoint_map _ f hf] at h ⊢
    cases hg : m.board.getNetPoint a with
    | none => simp [hg] at h
    | some p => simp

/-- The function on net points applied by one `updateNetpointPositions`. -/
theorem updateNetpointPositions_of_live (m : Machine) (cursorPos : Point)
    (h0 : (m.getPosition m.ctl.mFixedNetPoint).isSome)
    (h1 : (m.getPosition m.ctl.mPositioningNetPoint1).isSome)
    (h2 : (m.getPosition m.ctl.mPositioningNetPoint2).isSome) :
    ∃ f : BI_NetPoint → BI_NetPoint,
      updateNetpointPositions m cursorPos =
        some { m with board := { m.board with netPoints := m.board.netPoints.map f } } ∧
      ∀ q, f q = { q with position := (f q).position } ∧
        (some q.id ≠ m.ctl.mPositioningNetPoint1 → some q.id ≠ m.ctl.mPositioningNetPoint2 →
          f q = q) := by
  rcases m with ⟨ctl, us, board, hl, mb, replies, cr⟩
  simp only at h0 h1 h2
  cases hf : ctl.mFixedNetPoint with
  | none => simp [hf, Machine.getPosition] at h0
  | some a =>
  cases hp1 : ctl.mPositioningNetPoint1 with
  | none => simp [hp1, Machine.getPosition] at h1
  | some p1 =>
  cases hp2 : ctl.mPositioningNetPoint2 with
  | none => simp [hp2, Machine.getPosition] at h2
  | some p2 =>
  simp only [hf, hp1, hp2, Machine.getPosition, Option.isSome_map'] at h0 h1 h2
  obtain ⟨np0, hg0⟩ := Option.isSome_iff_exists.mp h0
  obtain ⟨np1, hg1⟩ := Option.isSome_iff_exists.mp h1
  obtain ⟨np2, hg2⟩ := Option.isSome_iff_exists.mp h2
  have hmap := getNetPoint_map board
    (fun p => if p.id = p1 then
      { p with position := calcMiddlePointPos np0.position cursorPos ctl.mCurrentWireMode }
      else p) (by intro q; dsimp only; split_ifs <;> rfl) p2
  simp only [hg2, Option.map_some'] at hmap
  refine ⟨(fun p => if p.id = p2 then { p with position := cursorPos } else p) ∘
    (fun p => if p.id = p1 then
      { p with position := calcMiddlePointPos np0.position cursorPos ctl.mCurrentWireMode }
      else p), ?_, ?_⟩
  · simp [updateNetpointPositions, hf, hp1, hp2, Machine.getPosition, hg0, hg1,
      Board.setPosition, hmap]
  · intro q
    rcases q with ⟨qid, seg, sig, layer, position, added⟩
    refine ⟨?_, ?_⟩
    · by_cases hq1 : qid = p1
      · by_cases hq2 : qid = p2
        · subst hq1
          subst hq2
          simp
        · subst hq1
          simp [hq2]
      · by_cases hq2 : qid = p2
        · subst hq2
          simp [hq1]
        · simp [hq1, hq2]
    · intro hn1 hn2
      have hq1 : qid ≠ p1 := by simpa using hn1
      have hq2 : qid ≠ p2 := by simpa using hn2
      simp [Function.comp, hq1, hq2]

/-- Processing pointer moves in a session with live points only moves the two speculative
points. -/
theorem processAll_moves (ps : List Point) (m : Machine)
    (hsub : m.ctl.mSubState = .SubState_PositioningNetPoint)
    (h0 : (m.getPosition m.ctl.mFixedNetPoint).isSome)
    (h1 : (m.getPosition m.ctl.mPositioningNetPoint1).isSome)
    (h2 : (m.getPosition m.ctl.mPositioningNetPoint2).isSome) :
    ∃ (m' : Machine) (f : BI_NetPoint → BI_NetPoint),
      processAll m (ps.map (fun p => .GraphicsViewEvent (.GraphicsSceneMouseMove p))) = some m' ∧
      m'.mUndoStack = m.mUndoStack ∧ m'.ctl = m.ctl ∧ m'.msgBoxes = m.msgBoxes ∧
      m'.highlightedNetSignal = m.highlightedNetSignal ∧
      m'.replies = m.replies ∧ m'.combineReports = m.combineReports ∧
      m'.board.layers = m.board.layers ∧ m'.board.netLines = m.board.netLines ∧
      m'.board.nextId = m.board.nextId ∧
      m'.board.netPoints = m.board.netPoints.map f ∧
      ∀ q, f q = { q with position := (f q).position } ∧
        (some q.id ≠ m.ctl.mPositioningNetPoint1 → some q.id ≠ m.ctl.mPositioningNetPoint2 →
          f q = q) := by
  induction ps generalizing m with
  | nil =>
    refine ⟨m, id, rfl, rfl, rfl, rfl, rfl, rfl, rfl, rfl, rfl, rfl, by simp, ?_⟩
    intro q
    exact ⟨rfl, fun _ _ => rfl⟩
  | cons p ps ih =>
    obtain ⟨f, hf, hfq⟩ := updateNetpointPositions_of_live m p h0 h1 h2
    have hid : ∀ q, (f q).id = q.id := fun q => by rw [(hfq q).1]
    obtain ⟨m', g, hrun, hus, hctl, hmb, hhl, hrep, hcr, hlay, hlin, hnid, hpts, hg⟩ :=
      ih { m with board := { m.board with netPoints := m.board.netPoints.map f } } hsub
        (getPosition_isSome_map m f hid _ h0) (getPosition_isSome_map m f hid _ h1)
        (getPosition_isSome_map m f hid _ h2)
    refine ⟨m', g ∘ f, ?_, hus, hctl, hmb, hhl, hrep, hcr, hlay, hlin, hnid, ?_, ?_⟩
    · simp only [List.map_cons, processAll, process, hsub, processSubStatePositioning,
        processPositioningSceneEvent, hf, Option.map_some']
      exact hrun
    · rw [hpts]
      simp
    · intro q
      have hq := hfq q
      have hgq := hg (f q)
      simp only [hid] at hgq
      have hs1 : (f q).netSegment = q.netSegment := by rw [hq.1]
      have hs2 : (f q).netSignal = q.netSignal := by rw [hq.1]
      have hs3 : (f q).layer = q.layer := by rw [hq.1]
      have hs4 : (f q).isAddedToBoard = q.isAddedToBoard := by rw [hq.1]
      refine ⟨?_, ?_⟩
      · simp only [Function.comp]
        conv_lhs => rw [hgq.1]
        rw [hs1, hs2, hs3, hs4]
      · intro hn1 hn2
        simp only [Function.comp]
        rw [hq.2 hn1 hn2]
        have := hg q
        exact this.2 hn1 hn2

/-- C5: in a Positioning session whose anchor and speculative points are live, processing
any finite sequence of pointer-move events succeeds and leaves the undo stack (committed
groups, open group and history of calls: nothing is appended, committed or aborted), the
members of the controller (sub-state, anchor, wire mode, speculative references), the
message boxes, the highlight, the net lines and the environment unchanged; the net points
are the same objects, and only the two speculative points may have changed, and only in
their position. -/
theorem moves_leave_log_untouched (ps : List Point) (m : Machine)
    (hsub : m.ctl.mSubState = .SubState_PositioningNetPoint)
    (h0 : (m.getPosition m.ctl.mFixedNetPoint).isSome)
    (h1 : (m.getPosition m.ctl.mPositioningNetPoint1).isSome)
    (h2 : (m.getPosition m.ctl.mPositioningNetPoint2).isSome) :
    ∃ (m' : Machine) (f : BI_NetPoint → BI_NetPoint),
      processAll m (ps.map (fun p => .GraphicsViewEvent (.GraphicsSceneMouseMove p))) = some m' ∧
      m'.mUndoStack = m.mUndoStack ∧ m'.ctl = m.ctl ∧ m'.msgBoxes = m.msgBoxes ∧
      m'.highlightedNetSignal = m.highlightedNetSignal ∧
      m'.replies = m.replies ∧ m'.combineReports = m.combineReports ∧
      m'.board.layers = m.board.layers ∧ m'.board.netLines = m.board.netLines ∧
      m'.board.nextId = m.board.nextId ∧
      m'.board.netPoints = m.board.netPoints.map f ∧
      ∀ q, f q = { q with position := (f q).position } ∧
        (some q.id ≠ m.ctl.mPositioningNetPoint1 → some q.id ≠ m.ctl.mPositioningNetPoint2 →
          f q = q) :=
  processAll_moves ps m hsub h0 h1 h2

/-! ## Committing a segment -/

theorem NoFailure.next {rs : List Reply} (h : NoFailure rs) : Reply.next rs = Reply.ok := by
  cases rs with
  | nil => rfl
  | cons r rs => exact h r (List.mem_cons_self _ _)

theorem NoFailure.tail {rs : List Reply} (h : NoFailure rs) : NoFailure rs.tail := by
  intro r hr
  exact h r (List.mem_of_mem_tail hr)

theorem NoFailure.drop {rs : List Reply} (h : NoFailure rs) (k : Nat) :
    NoFailure (rs.drop k) := by
  intro r hr
  exact h r (List.mem_of_mem_drop hr)

/-- The merge step of `addNextNetPoint` when the environment lets its appends succeed. -/
theorem addNextNetPointCombine_of_ok (m : Machine) (np0 np1 np2 : BI_NetPoint)
    (saved : Board) (cmds : List UndoCommand)
    (hf : m.ctl.mFixedNetPoint = some np0.id)
    (hp1 : m.ctl.mPositioningNetPoint1 = some np1.id)
    (hp2 : m.ctl.mPositioningNetPoint2 = some np2.id)
    (hg0 : m.board.getNetPoint np0.id = some np0)
    (hg1 : m.board.getNetPoint np1.id = some np1)
    (hg2 : m.board.getNetPoint np2.id = some np2)
    (hact : m.mUndoStack.active = some (saved, cmds))
    (hr1 : Reply.next m.replies = .ok) (hr2 : Reply.next m.replies.tail = .ok) :
    addNextNetPointCombine m = some (.ok (nextCombineReport m.combineReports),
      { ctl := m.ctl
        mUndoStack :=
          { committed := m.mUndoStack.committed
            active := some (saved, cmds ++ collapseCmds np1 np0 np2 ++
              [.CmdCombineAllItemsUnderBoardNetPoint np2.id])
            calls := m.mUndoStack.calls ++
              (collapseCmds np1 np0 np2).map (fun c => (UndoCall.appendToCmdGroup c, true)) ++
              [(.appendToCmdGroup (.CmdCombineAllItemsUnderBoardNetPoint np2.id), true)] }
        board := collapseBoard m.board np1 np0 np2
        highlightedNetSignal := m.highlightedNetSignal
        msgBoxes := m.msgBoxes
        replies := m.replies.drop ((collapseCmds np1 np0 np2).length + 1)
        combineReports := m.combineReports.tail }) := by
  rcases m with ⟨ctl, ⟨committed, active, calls⟩, board, hl, mb, replies, cr⟩
  simp only at hf hp1 hp2 hg0 hg1 hg2 hact hr1 hr2
  subst hact
  by_cases c1 : np1.position = np0.position
  · simp [addNextNetPointCombine, hf, hp1, hp2, hg0, hg1, hg2, c1, appendToCmdGroup,
      Machine.nextReply, hr1, hr2, Reply.toException_ok, Machine.popReply,
      UndoCommand.execute, collapseCmds, collapseBoard, drop_two_eq]
  · by_cases c2 : np1.position = np2.position
    · have c1' : ¬ np2.position = np0.position := c2 ▸ c1
      simp [addNextNetPointCombine, hf, hp1, hp2, hg0, hg1, hg2, c1, c1', c2, appendToCmdGroup,
        Machine.nextReply, hr1, hr2, Reply.toException_ok, Machine.popReply,
        UndoCommand.execute, collapseCmds, collapseBoard, drop_two_eq]
    · simp [addNextNetPointCombine, hf, hp1, hp2, hg0, hg1, hg2, c1, c2, appendToCmdGroup,
        Machine.nextReply, hr1, Reply.toException_ok, Machine.popReply,
        UndoCommand.execute, collapseCmds, collapseBoard]

/-- The commit step of `addNextNetPoint` with `finishCommand` set, when the environment lets
the three calls succeed. -/
theorem addNextNetPointCommit_finish (m : Machine) (pos : Point) (saved : Board)
    (cmds : List UndoCommand) (hact : m.mUndoStack.active = some (saved, cmds))
    (hr1 : Reply.next m.replies = .ok) (hr2 : Reply.next m.replies.tail = .ok)
    (hr3 : Reply.next m.replies.tail.tail = .ok) :
    addNextNetPointCommit m pos true = some (false,
      { ctl := { m.ctl with
          mSubState := .SubState_Idle
          mFixedNetPoint := none
          mPositioningNetLine1 := none
          mPositioningNetLine2 := none
          mPositioningNetPoint1 := none
          mPositioningNetPoint2 := none }
        mUndoStack :=
          { committed := m.mUndoStack.committed ++ [cmds]
            active := none
            calls := m.mUndoStack.calls ++
              [(.commitCmdGroup, true), (.beginCmdGroup, true), (.abortCmdGroup, true)] }
        board := m.board
        highlightedNetSignal := none
        msgBoxes := m.msgBoxes
        replies := m.replies.tail.tail.tail
        combineReports := m.combineReports }) := by
  rcases m with ⟨ctl, ⟨committed, active, calls⟩, board, hl, mb, replies, cr⟩
  simp only at hact hr1 hr2 hr3
  subst hact
  simp [addNextNetPointCommit, commitCmdGroup, beginCmdGroup, abortPositioning, abortCmdGroup,
    Machine.nextReply, hr1, hr2, hr3, Reply.toException_ok, Machine.popReply]

/-- C6: in a Positioning session with live anchor and speculative points and an open group,
a click away from the anchor, with no failing undo stack call and with the
combine-all-under-tail edit reporting that it combined something, appends the point merge of
`collapseCmds` (if any) and the combine-all edit, commits the open group once, then opens a
group and aborts it with nothing appended to it, and returns failure in Idle with the anchor
and the four speculative references empty and no net highlighted; no new session is
started. -/
theorem addNextNetPoint_finishes_session (m : Machine) (pos : Point)
    (np0 np1 np2 : BI_NetPoint) (saved : Board) (cmds : List UndoCommand)
    (hsub : m.ctl.mSubState = .SubState_PositioningNetPoint)
    (hf : m.ctl.mFixedNetPoint = some np0.id)
    (hp1 : m.ctl.mPositioningNetPoint1 = some np1.id)
    (hp2 : m.ctl.mPositioningNetPoint2 = some np2.id)
    (hg0 : m.board.getNetPoint np0.id = some np0)
    (hg1 : m.board.getNetPoint np1.id = some np1)
    (hg2 : m.board.getNetPoint np2.id = some np2)
    (hpos : pos ≠ np0.position)
    (hact : m.mUndoStack.active = some (saved, cmds))
    (hok : NoFailure m.replies)
    (hcomb : nextCombineReport m.combineReports = true) :
    ∃ m', addNextNetPoint m pos = some (false, m') ∧
      m'.ctl.mSubState = .SubState_Idle ∧
      m'.ctl.mFixedNetPoint = none ∧
      m'.ctl.mPositioningNetLine1 = none ∧ m'.ctl.mPositioningNetPoint1 = none ∧
      m'.ctl.mPositioningNetLine2 = none ∧ m'.ctl.mPositioningNetPoint2 = none ∧
      m'.highlightedNetSignal = none ∧
      m'.mUndoStack.committed = m.mUndoStack.committed ++
        [cmds ++ collapseCmds np1 np0 np2 ++ [.CmdCombineAllItemsUnderBoardNetPoint np2.id]] ∧
      m'.mUndoStack.active = none ∧
      m'.mUndoStack.calls = m.mUndoStack.calls ++
        (collapseCmds np1 np0 np2).map (fun c => (UndoCall.appendToCmdGroup c, true)) ++
        [(.appendToCmdGroup (.CmdCombineAllItemsUnderBoardNetPoint np2.id), true),
         (.commitCmdGroup, true), (.beginCmdGroup, true), (.abortCmdGroup, true)] ∧
      m'.msgBoxes = m.msgBoxes ∧
      m'.board = collapseBoard m.board np1 np0 np2 := by
  have hc := addNextNetPointCombine_of_ok m np0 np1 np2 saved cmds hf hp1 hp2 hg0 hg1 hg2 hact
    hok.next hok.tail.next
  have hd := hok.drop ((collapseCmds np1 np0 np2).length + 1)
  have hfin := addNextNetPointCommit_finish
    { ctl := m.ctl
      mUndoStack :=
        { committed := m.mUndoStack.committed
          active := some (saved, cmds ++ collapseCmds np1 np0 np2 ++
            [.CmdCombineAllItemsUnderBoardNetPoint np2.id])
          calls := m.mUndoStack.calls ++
            (collapseCmds np1 np0 np2).map (fun c => (UndoCall.appendToCmdGroup c, true)) ++
            [(.appendToCmdGroup (.CmdCombineAllItemsUnderBoardNetPoint np2.id), true)] }
      board := collapseBoard m.board np1 np0 np2
      highlightedNetSignal := m.highlightedNetSignal
      msgBoxes := m.msgBoxes
      replies := m.replies.drop ((collapseCmds np1 np0 np2).length + 1)
      combineReports := m.combineReports.tail }
    pos saved
    (cmds ++ collapseCmds np1 np0 np2 ++ [.CmdCombineAllItemsUnderBoardNetPoint np2.id])
    rfl hd.next hd.tail.next hd.tail.tail.next
  have hres : addNextNetPoint m pos = _ :=
    (show addNextNetPoint m pos = _ by
      simp only [addNextNetPoint, hsub, Machine.getPosition, hf, hg0, Option.map_some', hpos,
        hc, hcomb, ne_eq, not_true_eq_false, ↓reduceIte]).trans hfin
  exact ⟨_, hres, by simp⟩

/-- A `startPositioning` with a supplied anchor, from Idle with no group open, when the
environment lets `beginCmdGroup` and the append succeed. -/
theorem startPositioning_supplied_of_ok (m : Machine) (pos : Point) (fixed : BI_NetPoint)
    (hsub : m.ctl.mSubState = .SubState_Idle)
    (hact : m.mUndoStack.active = none)
    (hr1 : Reply.next m.replies = .ok) (hr2 : Reply.next m.replies.tail = .ok)
    (hg : m.board.getNetPoint fixed.id = some fixed)
    (hwfp : ∀ p ∈ m.board.netPoints, p.id < m.board.nextId) :
    startPositioning m pos (some fixed.id) =
      some (true, startedSession (begunSession m fixed.id) fixed m.board [] pos) := by
  have key := startPositioningAddElements_of_ok (begunSession m fixed.id) pos fixed m.board []
    rfl hg rfl hr2 hwfp
  rcases m with ⟨ctl, ⟨committed, active, calls⟩, board, hl, mb, replies, cr⟩
  simp only at hsub hact hr1 hr2 hg hwfp
  subst hact
  simp only [begunSession] at key
  simp only [startPositioning, startPositioningTry, hsub, beginCmdGroup, Machine.nextReply, hr1,
    Reply.toException_ok, Machine.popReply, ne_eq, not_true_eq_false, ↓reduceIte, key,
    begunSession]

theorem collapseBoard_netPoints (b : Board) (np1 np0 np2 : BI_NetPoint) :
    ∃ f : BI_NetPoint → BI_NetPoint,
      (collapseBoard b np1 np0 np2).netPoints = b.netPoints.map f ∧
      (collapseBoard b np1 np0 np2).nextId = b.nextId ∧
      (collapseBoard b np1 np0 np2).layers = b.layers ∧
      ∀ q, f q = { q with isAddedToBoard := (f q).isAddedToBoard } := by
  have hq : ∀ q : BI_NetPoint,
      (fun p : BI_NetPoint => if p.id = np1.id then { p with isAddedToBoard := false } else p) q
        = { q with isAddedToBoard :=
          ((fun p : BI_NetPoint =>
            if p.id = np1.id then { p with isAddedToBoard := false } else p) q).isAddedToBoard } := by
    intro q
    by_cases h : q.id = np1.id <;> simp [h]
  unfold collapseBoard
  split_ifs
  · exact ⟨_, rfl, rfl, rfl, hq⟩
  · exact ⟨_, rfl, rfl, rfl, hq⟩
  · exact ⟨id, by simp, rfl, rfl, fun q => rfl⟩

/-- The commit step of `addNextNetPoint` with `finishCommand` not set, when the commit
succeeds: a new session is started on the tail point. -/
theorem addNextNetPointCommit_continue (m : Machine) (pos : Point) (saved : Board)
    (cmds : List UndoCommand) (hact : m.mUndoStack.active = some (saved, cmds))
    (hr1 : Reply.next m.replies = .ok) :
    addNextNetPointCommit m pos false =
      startPositioning
        { ctl := { m.ctl with mSubState := .SubState_Idle }
          mUndoStack :=
            { committed := m.mUndoStack.committed ++ [cmds]
              active := none
              calls := m.mUndoStack.calls ++ [(.commitCmdGroup, true)] }
          board := m.board
          highlightedNetSignal := m.highlightedNetSignal
          msgBoxes := m.msgBoxes
          replies := m.replies.tail
          combineReports := m.combineReports }
        pos m.ctl.mPositioningNetPoint2 := by
  rcases m with ⟨ctl, ⟨committed, active, calls⟩, board, hl, mb, replies, cr⟩
  simp only at hact hr1
  subst hact
  simp [addNextNetPointCommit, commitCmdGroup, Machine.nextReply, hr1, Reply.toException_ok,
    Machine.popReply]

/-- The state in which `addNextNetPoint` ends when it commits and continues. -/
theorem addNextNetPoint_continue_eval (m : Machine) (pos : Point)
    (np0 np1 np2 : BI_NetPoint) (saved : Board) (cmds : List UndoCommand)
    (hsub : m.ctl.mSubState = .SubState_PositioningNetPoint)
    (hf : m.ctl.mFixedNetPoint = some np0.id)
    (hp1 : m.ctl.mPositioningNetPoint1 = some np1.id)
    (hp2 : m.ctl.mPositioningNetPoint2 = some np2.id)
    (hg0 : m.board.getNetPoint np0.id = some np0)
    (hg1 : m.board.getNetPoint np1.id = some np1)
    (hg2 : m.board.getNetPoint np2.id = some np2)
    (hpos : pos ≠ np0.position)
    (hact : m.mUndoStack.active = some (saved, cmds))
    (hok : NoFailure m.replies)
    (hwf : m.board.WF)
    (hcomb : nextCombineReport m.combineReports = false) :
    ∃ fixed : BI_NetPoint, fixed.id = np2.id ∧
      (collapseBoard m.board np1 np0 np2).getNetPoint np2.id = some fixed ∧
      addNextNetPoint m pos = some (true,
        startedSession (begunSession
          { ctl := { m.ctl with mSubState := .SubState_Idle }
            mUndoStack :=
              { committed := m.mUndoStack.committed ++
                  [cmds ++ collapseCmds np1 np0 np2 ++
                    [.CmdCombineAllItemsUnderBoardNetPoint np2.id]]
                active := none
                calls := m.mUndoStack.calls ++
                  (collapseCmds np1 np0 np2).map (fun c => (UndoCall.appendToCmdGroup c, true)) ++
                  [(.appendToCmdGroup (.CmdCombineAllItemsUnderBoardNetPoint np2.id), true)] ++
                  [(.commitCmdGroup, true)] }
            board := collapseBoard m.board np1 np0 np2
            highlightedNetSignal := m.highlightedNetSignal
            msgBoxes := m.msgBoxes
            replies := (m.replies.drop ((collapseCmds np1 np0 np2).length + 1)).tail
            combineReports := m.combineReports.tail } np2.id)
          fixed (collapseBoard m.board np1 np0 np2) [] pos) := by
  have hc := addNextNetPointCombine_of_ok m np0 np1 np2 saved cmds hf hp1 hp2 hg0 hg1 hg2 hact
    hok.next hok.tail.next
  have hd := hok.drop ((collapseCmds np1 np0 np2).length + 1)
  obtain ⟨f, hfpts, hfnid, _, hfq⟩ := collapseBoard_netPoints m.board np1 np0 np2
  have hfid : ∀ q, (f q).id = q.id := fun q => by rw [hfq q]
  have hgc : (collapseBoard m.board np1 np0 np2).getNetPoint np2.id = some (f np2) := by
    have := getNetPoint_map m.board f hfid np2.id
    rw [hg2] at this
    simp only [Board.getNetPoint] at this ⊢
    rw [hfpts]
    exact this
  have hwfc : ∀ p ∈ (collapseBoard m.board np1 np0 np2).netPoints,
      p.id < (collapseBoard m.board np1 np0 np2).nextId := by
    intro p hp
    rw [hfpts] at hp
    rw [hfnid]
    obtain ⟨q, hq, rfl⟩ := List.mem_map.mp hp
    rw [hfid]
    exact hwf.1 q hq
  refine ⟨f np2, hfid np2, hgc, ?_⟩
  have hcont := addNextNetPointCommit_continue
    { ctl := m.ctl
      mUndoStack :=
        { committed := m.mUndoStack.committed
          active := some (saved, cmds ++ collapseCmds np1 np0 np2 ++
            [.CmdCombineAllItemsUnderBoardNetPoint np2.id])
          calls := m.mUndoStack.calls ++
            (collapseCmds np1 np0 np2).map (fun c => (UndoCall.appendToCmdGroup c, true)) ++
            [(.appendToCmdGroup (.CmdCombineAllItemsUnderBoardNetPoint np2.id), true)] }
      board := collapseBoard m.board np1 np0 np2
      highlightedNetSignal := m.highlightedNetSignal
      msgBoxes := m.msgBoxes
      replies := m.replies.drop ((collapseCmds np1 np0 np2).length + 1)
      combineReports := m.combineReports.tail }
    pos saved
    (cmds ++ collapseCmds np1 np0 np2 ++ [.CmdCombineAllItemsUnderBoardNetPoint np2.id])
    rfl hd.next
  have hstart := startPositioning_supplied_of_ok
    { ctl := { m.ctl with mSubState := .SubState_Idle }
      mUndoStack :=
        { committed := m.mUndoStack.committed ++
            [cmds ++ collapseCmds np1 np0 np2 ++
              [.CmdCombineAllItemsUnderBoardNetPoint np2.id]]
          active := none
          calls := m.mUndoStack.calls ++
            (collapseCmds np1 np0 np2).map (fun c => (UndoCall.appendToCmdGroup c, true)) ++
            [(.appendToCmdGroup (.CmdCombineAllItemsUnderBoardNetPoint np2.id), true)] ++
            [(.commitCmdGroup, true)] }
      board := collapseBoard m.board np1 np0 np2
      highlightedNetSignal := m.highlightedNetSignal
      msgBoxes := m.msgBoxes
      replies := (m.replies.drop ((collapseCmds np1 np0 np2).length + 1)).tail
      combineReports := m.combineReports.tail }
    pos (f np2) rfl rfl hd.tail.next hd.tail.tail.next
    (by rw [hfid]; exact hgc) hwfc
  rw [hfid] at hstart
  rw [← hstart]
  simp only [addNextNetPoint, hsub, Machine.getPosition, hf, hg0, Option.map_some', hpos,
    hc, hcomb, ne_eq, not_true_eq_false, ↓reduceIte]
  rw [hcont]
  simp only [hf, hp1, hp2]

/-- The anchor and the speculative points of a started session are live. -/
theorem startedSession_live (m : Machine) (fixed : BI_NetPoint) (saved : Board)
    (cmds : List UndoCommand) (pos : Point)
    (hf : m.ctl.mFixedNetPoint = some fixed.id)
    (hg : m.board.getNetPoint fixed.id = some fixed)
    (hwfp : ∀ p ∈ m.board.netPoints, p.id < m.board.nextId) :
    ((startedSession m fixed saved cmds pos).getPosition
      (startedSession m fixed saved cmds pos).ctl.mFixedNetPoint).isSome ∧
    ((startedSession m fixed saved cmds pos).getPosition
      (startedSession m fixed saved cmds pos).ctl.mPositioningNetPoint1).isSome ∧
    ((startedSession m fixed saved cmds pos).getPosition
      (startedSession m fixed saved cmds pos).ctl.mPositioningNetPoint2).isSome := by
  have hg' := hg
  simp only [Board.getNetPoint] at hg'
  simp [startedSession, Machine.getPosition, Board.getNetPoint, List.find?_append, hf, hg',
    find?_id_eq_none_of_lt _ _ _ hwfp (Nat.le_refl _),
    find?_id_eq_none_of_lt _ _ _ hwfp (Nat.le_add_right _ 2)]

/-- C7: in a Positioning session with live anchor and speculative points and an open group,
a click away from the anchor, with no failing undo stack call and with the
combine-all-under-tail edit reporting that it combined nothing, commits the open group (with
the point merge of `collapseCmds`, if any, and the combine-all edit appended) and re-enters
Positioning: the new fixed anchor is the previous tail point (no anchor is placed: the new
open group holds the single edit that adds the two new points and two new lines), and the
speculative references are the fresh identities `nextId`, ..., `nextId + 3`. Whenever the new
session is aborted later, after any pointer moves, the discard succeeds, the new group is
gone, the committed groups are as the commit left them and the board is the one saved at
the commit. -/
theorem addNextNetPoint_continues_session (m : Machine) (pos : Point)
    (np0 np1 np2 : BI_NetPoint) (saved : Board) (cmds : List UndoCommand)
    (hsub : m.ctl.mSubState = .SubState_PositioningNetPoint)
    (hf : m.ctl.mFixedNetPoint = some np0.id)
    (hp1 : m.ctl.mPositioningNetPoint1 = some np1.id)
    (hp2 : m.ctl.mPositioningNetPoint2 = some np2.id)
    (hg0 : m.board.getNetPoint np0.id = some np0)
    (hg1 : m.board.getNetPoint np1.id = some np1)
    (hg2 : m.board.getNetPoint np2.id = some np2)
    (hpos : pos ≠ np0.position)
    (hact : m.mUndoStack.active = some (saved, cmds))
    (hok : NoFailure m.replies)
    (hwf : m.board.WF)
    (hcomb : nextCombineReport m.combineReports = false) :
    ∃ (m' : Machine) (seg : Nat) (ps : List BI_NetPoint) (ls : List BI_NetLine),
      addNextNetPoint m pos = some (true, m') ∧
      m'.ctl.mSubState = .SubState_PositioningNetPoint ∧
      m'.ctl.mFixedNetPoint = m.ctl.mPositioningNetPoint2 ∧
      m'.ctl.mPositioningNetPoint1 = some m.board.nextId ∧
      m'.ctl.mPositioningNetLine1 = some (m.board.nextId + 1) ∧
      m'.ctl.mPositioningNetPoint2 = some (m.board.nextId + 2) ∧
      m'.ctl.mPositioningNetLine2 = some (m.board.nextId + 3) ∧
      m'.mUndoStack.committed = m.mUndoStack.committed ++
        [cmds ++ collapseCmds np1 np0 np2 ++ [.CmdCombineAllItemsUnderBoardNetPoint np2.id]] ∧
      m'.mUndoStack.active = some (collapseBoard m.board np1 np0 np2,
        [.CmdBoardNetSegmentAddElements seg ps ls]) ∧
      ps.map (fun p => p.id) = [m.board.nextId, m.board.nextId + 2] ∧
      ls.map (fun l => (l.id, l.startPoint, l.endPoint)) =
        [(m.board.nextId + 1, np2.id, m.board.nextId),
         (m.board.nextId + 3, m.board.nextId, m.board.nextId + 2)] ∧
      m'.msgBoxes = m.msgBoxes ∧
      ∀ (moves : List Point) (showErrMsgBox : Bool), ∃ m'',
        processAll m' (moves.map (fun p => .GraphicsViewEvent (.GraphicsSceneMouseMove p)))
          = some m'' ∧
        (abortPositioning m'' showErrMsgBox).1 = true ∧
        (abortPositioning m'' showErrMsgBox).2.ctl.mSubState = .SubState_Idle ∧
        (abortPositioning m'' showErrMsgBox).2.mUndoStack.committed = m'.mUndoStack.committed ∧
        (abortPositioning m'' showErrMsgBox).2.mUndoStack.active = none ∧
        (abortPositioning m'' showErrMsgBox).2.board = collapseBoard m.board np1 np0 np2 := by
  obtain ⟨fixed, hfid, hgc, hres⟩ := addNextNetPoint_continue_eval m pos np0 np1 np2 saved cmds
    hsub hf hp1 hp2 hg0 hg1 hg2 hpos hact hok hwf hcomb
  obtain ⟨f, hfpts, hfnid, _, hfq⟩ := collapseBoard_netPoints m.board np1 np0 np2
  have hfidq : ∀ q, (f q).id = q.id := fun q => by rw [hfq q]
  have hwfc : ∀ p ∈ (collapseBoard m.board np1 np0 np2).netPoints,
      p.id < (collapseBoard m.board np1 np0 np2).nextId := by
    intro p hp
    rw [hfpts] at hp
    rw [hfnid]
    obtain ⟨q, hq, rfl⟩ := List.mem_map.mp hp
    rw [hfidq]
    exact hwf.1 q hq
  refine ⟨_, fixed.netSegment,
    [⟨(collapseBoard m.board np1 np0 np2).nextId, fixed.netSegment, fixed.netSignal, fixed.layer,
        pos, false⟩,
     ⟨(collapseBoard m.board np1 np0 np2).nextId + 2, fixed.netSegment, fixed.netSignal,
        fixed.layer, pos, false⟩],
    [⟨(collapseBoard m.board np1 np0 np2).nextId + 1, fixed.id,
        (collapseBoard m.board np1 np0 np2).nextId, m.ctl.mCurrentWidth, false⟩,
     ⟨(collapseBoard m.board np1 np0 np2).nextId + 3, (collapseBoard m.board np1 np0 np2).nextId,
        (collapseBoard m.board np1 np0 np2).nextId + 2, m.ctl.mCurrentWidth, false⟩],
    hres, ?_, ?_, ?_, ?_, ?_, ?_, ?_, ?_, ?_, ?_, ?_, ?_⟩
  · rfl
  · simp [startedSession, begunSession, hp2]
  · simp [startedSession, begunSession, hfnid]
  · simp [startedSession, begunSession, hfnid]
  · simp [startedSession, begunSession, hfnid]
  · simp [startedSession, begunSession, hfnid]
  · simp [startedSession, begunSession]
  · simp only [startedSession, begunSession, addElementsCmd, List.nil_append]
  · simp [hfnid]
  · simp [hfnid, hfid]
  · rfl
  · intro moves showErrMsgBox
    have hlive := startedSession_live
      (begunSession
          { ctl := { m.ctl with mSubState := .SubState_Idle }
            mUndoStack :=
              { committed := m.mUndoStack.committed ++
                  [cmds ++ collapseCmds np1 np0 np2 ++
                    [.CmdCombineAllItemsUnderBoardNetPoint np2.id]]
                active := none
                calls := m.mUndoStack.calls ++
                  (collapseCmds np1 np0 np2).map (fun c => (UndoCall.appendToCmdGroup c, true)) ++
                  [(.appendToCmdGroup (.CmdCombineAllItemsUnderBoardNetPoint np2.id), true)] ++
                  [(.commitCmdGroup, true)] }
            board := collapseBoard m.board np1 np0 np2
            highlightedNetSignal := m.highlightedNetSignal
            msgBoxes := m.msgBoxes
            replies := (m.replies.drop ((collapseCmds np1 np0 np2).length + 1)).tail
            combineReports := m.combineReports.tail } np2.id)
      fixed (collapseBoard m.board np1 np0 np2) [] pos
      (by simp [begunSession, hfid]) (by rw [hfid]; exact hgc) hwfc
    obtain ⟨m'', g, hrun, hus, _, _, _, hrep, _⟩ :=
      processAll_moves moves _ rfl hlive.1 hlive.2.1 hlive.2.2
    refine ⟨m'', hrun, ?_⟩
    have hnf : Reply.next m''.replies = .ok := by
      rw [hrep]
      exact (hok.drop ((collapseCmds np1 np0 np2).length + 1)).tail.tail.tail.next
    have hab := abortPositioning_of_ok m'' showErrMsgBox (collapseBoard m.board np1 np0 np2) _
      (by rw [hus]; rfl) hnf
    rw [hab]
    simp [hus, startedSession, begunSession]

/-! ## Failures -/

/-- The shared handler entered in sub-state Idle shows the error and does nothing else. -/
theorem catchAndAbort_of_idle (e : Exception) (m : Machine)
    (h : m.ctl.mSubState = .SubState_Idle) : catchAndAbort e m = (false, m.critical e) := by
  simp [catchAndAbort, Machine.critical, h]

/-- A failing `beginCmdGroup` changes nothing but the history of calls and the script of the
environment. -/
theorem beginCmdGroup_of_error (m : Machine) (e : Exception)
    (h : (beginCmdGroup m).1 = some e) :
    (beginCmdGroup m).2.mUndoStack.calls = m.mUndoStack.calls ++ [(.beginCmdGroup, false)] ∧
    (beginCmdGroup m).2.mUndoStack.active = m.mUndoStack.active ∧
    (beginCmdGroup m).2.mUndoStack.committed = m.mUndoStack.committed ∧
    (beginCmdGroup m).2.board = m.board ∧ (beginCmdGroup m).2.ctl = m.ctl ∧
    (beginCmdGroup m).2.msgBoxes = m.msgBoxes := by
  rcases m with ⟨ctl, ⟨committed, active, calls⟩, board, hl, mb, replies, cr⟩
  rcases active with _ | ⟨saved, cmds⟩
  · rcases Reply.next_cases replies with hr | ⟨e2, hr⟩
    · simp [beginCmdGroup, Machine.nextReply, hr, Reply.toException_ok] at h
    · simp [beginCmdGroup, Machine.nextReply, hr, Machine.popReply, Machine.logCall]
  · simp [beginCmdGroup, Machine.logCall]

/-- The function `startPositioning` when its `beginCmdGroup` throws `e`. -/
theorem startPositioning_of_begin_error (m : Machine) (pos : Point) (fixedPoint : Option Nat)
    (e : Exception) (hsub : m.ctl.mSubState = .SubState_Idle)
    (h : (beginCmdGroup m).1 = some e) :
    startPositioning m pos fixedPoint = some (false, ((beginCmdGroup m).2).critical e) := by
  have hb := beginCmdGroup_of_error m e h
  have hc : startPositioningTry m pos fixedPoint = some (some e, (beginCmdGroup m).2) := by
    simp only [startPositioningTry, hsub, ne_eq, not_true_eq_false, ↓reduceIte]
    generalize beginCmdGroup m = rb at h
    obtain ⟨ob, m1⟩ := rb
    simp only at h
    subst h
    rfl
  simp only [startPositioning, hc]
  rw [catchAndAbort_of_idle e _ (by rw [hb.2.2.2.2.1]; exact hsub)]

/-- The exception of a failing `beginCmdGroup` is not "No layer selected". -/
theorem beginCmdGroup_error_ne (m : Machine) (e : Exception)
    (h : (beginCmdGroup m).1 = some e) : e ≠ .NoLayerSelected := by
  rcases m with ⟨ctl, ⟨committed, active, calls⟩, board, hl, mb, replies, cr⟩
  rcases active with _ | ⟨saved, cmds⟩
  · cases hr : Reply.next replies <;>
      simp [beginCmdGroup, Machine.nextReply, hr, Reply.toException] at h
    all_goals subst h
    all_goals simp
  · simp only [beginCmdGroup, Option.some.injEq] at h
    subst h
    simp

/-- C10 (amended): when a merge edit of `addNextNetPoint` is cancelled by the user, the
click shows no error, commits and aborts nothing (only appends are asked of the undo stack),
returns failure and leaves the members of the controller (sub-state Positioning, anchor,
speculative references, wire mode) as they were. The open group and the board are as before
the click when the cancelled edit is the first one the click appends; when the point merge
of `collapseCmds` was appended before the cancelled combine-all edit, that point merge stays
in the open group and stays executed on the board. -/
theorem addNextNetPoint_merge_cancelled (m : Machine) (pos : Point)
    (np0 np1 np2 : BI_NetPoint) (m1 : Machine)
    (hsub : m.ctl.mSubState = .SubState_PositioningNetPoint)
    (hf : m.ctl.mFixedNetPoint = some np0.id)
    (hp1 : m.ctl.mPositioningNetPoint1 = some np1.id)
    (hp2 : m.ctl.mPositioningNetPoint2 = some np2.id)
    (hg0 : m.board.getNetPoint np0.id = some np0)
    (hg1 : m.board.getNetPoint np1.id = some np1)
    (hg2 : m.board.getNetPoint np2.id = some np2)
    (hpos : pos ≠ np0.position)
    (hcancel : addNextNetPointCombine m = some (.error .UserCanceled, m1)) :
    addNextNetPoint m pos = some (false, m1) ∧
    m1.msgBoxes = m.msgBoxes ∧ m1.ctl = m.ctl ∧
    m1.mUndoStack.committed = m.mUndoStack.committed ∧
    (∃ new, m1.mUndoStack.calls = m.mUndoStack.calls ++ new ∧
      ∀ c ∈ new, ∃ cmd ok, c = (UndoCall.appendToCmdGroup cmd, ok)) ∧
    (Reply.next m.replies = .userCanceled →
      m1.mUndoStack.active = m.mUndoStack.active ∧ m1.board = m.board) ∧
    (Reply.next m.replies ≠ .userCanceled →
      ∃ saved cmds c, collapseCmds np1 np0 np2 = [c] ∧
        m.mUndoStack.active = some (saved, cmds) ∧
        m1.mUndoStack.active = some (saved, cmds ++ [c]) ∧
        m1.board = collapseBoard m.board np1 np0 np2) := by
  have hres : addNextNetPoint m pos = some (false, m1) := by
    simp [addNextNetPoint, hsub, Machine.getPosition, hf, hg0, hpos, hcancel]
  refine ⟨hres, ?_⟩
  clear hres
  rcases m with ⟨ctl, ⟨committed, active, calls⟩, board, hl, mb, replies, cr⟩
  simp only at hsub hf hp1 hp2 hg0 hg1 hg2
  simp only [addNextNetPointCombine, hf, hp1, hp2, hg0, hg1, hg2] at hcancel
  rcases active with _ | ⟨saved, cmds⟩
  · by_cases c1 : np1.position = np0.position
    · simp [c1, appendToCmdGroup] at hcancel
    · by_cases c2 : np1.position = np2.position
      · have c1' : ¬ np2.position = np0.position := c2 ▸ c1
        simp [c1, c1', c2, appendToCmdGroup] at hcancel
      · simp [c1, c2, appendToCmdGroup] at hcancel
  · by_cases c1 : np1.position = np0.position
    · cases hr : Reply.next replies <;> cases hr2 : Reply.next replies.tail <;>
        simp [c1, appendToCmdGroup, Machine.nextReply, hr, hr2, Reply.toException,
          Machine.popReply, Machine.logCall, UndoCommand.execute] at hcancel
      all_goals subst hcancel
      all_goals simp [collapseCmds, collapseBoard, c1, hr]
      all_goals intro a
      all_goals exact ⟨fun h => ⟨_, h⟩, fun h => ⟨_, h⟩⟩
    · by_cases c2 : np1.position = np2.position
      · have c1' : ¬ np2.position = np0.position := c2 ▸ c1
        cases hr : Reply.next replies <;> cases hr2 : Reply.next replies.tail <;>
          simp [c1, c1', c2, appendToCmdGroup, Machine.nextReply, hr, hr2, Reply.toException,
            Machine.popReply, Machine.logCall, UndoCommand.execute] at hcancel
        all_goals subst hcancel
        all_goals simp [collapseCmds, collapseBoard, c1, c1', c2, hr]
        all_goals intro a
        all_goals exact ⟨fun h => ⟨_, h⟩, fun h => ⟨_, h⟩⟩
      · cases hr : Reply.next replies <;>
          simp [c1, c2, appendToCmdGroup, Machine.nextReply, hr, Reply.toException,
            Machine.popReply, Machine.logCall, UndoCommand.execute] at hcancel
        all_goals subst hcancel
        all_goals simp [collapseCmds, collapseBoard, c1, c2, hr]

/-! ## Instances of the theorems, and the inputs on which claims fail -/

/-- An instance of `startPositioning_starts_session`: the first press on the empty board. -/
theorem startPositioning_starts_session_witness :
    (initialMachine emptyBoard [] []).board.WF ∧
    startPositioning (initialMachine emptyBoard [] []) ⟨0, 0⟩ none
      = some (true, runEvents [] [] [leftPress ⟨0, 0⟩]) ∧
    (runEvents [] [] [leftPress ⟨0, 0⟩]).ctl.mSubState = .SubState_PositioningNetPoint ∧
    (runEvents [] [] [leftPress ⟨0, 0⟩]).board.netPoints.length = 3 ∧
    (runEvents [] [] [leftPress ⟨0, 0⟩]).board.netLines.length = 2 :=
  have hwf : (initialMachine emptyBoard [] []).board.WF := by
    constructor <;> intro p hp <;> simp [initialMachine, emptyBoard] at hp
  have h : startPositioning (initialMachine emptyBoard [] []) ⟨0, 0⟩ none
      = some (true, runEvents [] [] [leftPress ⟨0, 0⟩]) := by decide
  ⟨hwf, h, (startPositioning_starts_session _ _ _ _ hwf h).2.1, by decide, by decide⟩

/-- An instance of `addNextNetPoint_at_anchor`: in the example session, a click at the
anchor `(0,0)` returns failure in Idle and leaves the empty board on which the session was
started. -/
theorem addNextNetPoint_at_anchor_witness :
    (demoSession ⟨10, 0⟩ [] []).ctl.mSubState = .SubState_PositioningNetPoint ∧
    (demoSession ⟨10, 0⟩ [] []).getPosition (demoSession ⟨10, 0⟩ [] []).ctl.mFixedNetPoint
      = some ⟨0, 0⟩ ∧
    (∃ m' ok, addNextNetPoint (demoSession ⟨10, 0⟩ [] []) ⟨0, 0⟩ = some (false, m') ∧
      m'.ctl.mSubState = .SubState_Idle ∧
      m'.mUndoStack.committed = (demoSession ⟨10, 0⟩ [] []).mUndoStack.committed ∧
      m'.mUndoStack.calls =
        (demoSession ⟨10, 0⟩ [] []).mUndoStack.calls ++ [(.abortCmdGroup, ok)]) ∧
    ((addNextNetPoint (demoSession ⟨10, 0⟩ [] []) ⟨0, 0⟩).map (fun r => r.2.board))
      = some emptyBoard :=
  have hsub : (demoSession ⟨10, 0⟩ [] []).ctl.mSubState = .SubState_PositioningNetPoint := by
    decide
  have hpos : (demoSession ⟨10, 0⟩ [] []).getPosition
      (demoSession ⟨10, 0⟩ [] []).ctl.mFixedNetPoint = some ⟨0, 0⟩ := by decide
  ⟨hsub, hpos,
    (addNextNetPoint_at_anchor (demoSession ⟨10, 0⟩ [] []) ⟨0, 0⟩ hsub hpos).elim
      (fun m' h => h.elim (fun ok h => ⟨m', ok, h.1, h.2.1, h.2.2.1, h.2.2.2.1⟩)),
    by decide⟩

/-- C3 fails as stated when the discard itself fails: in the example session with an
environment that makes the next undo stack call fail, a click at the anchor `(0,0)` ends in
Idle and returns failure, but the open group is still open with its two edits, the board
still holds the three net points and two net lines of the session (it is not the empty board
on which the group was opened), and the error is shown. -/
theorem addNextNetPoint_at_anchor_discard_fails :
    (demoSession ⟨10, 0⟩ [.failure] []).ctl.mSubState = .SubState_PositioningNetPoint ∧
    (demoSession ⟨10, 0⟩ [.failure] []).getPosition
      (demoSession ⟨10, 0⟩ [.failure] []).ctl.mFixedNetPoint = some ⟨0, 0⟩ ∧
    (demoSession ⟨10, 0⟩ [.failure] []).mUndoStack.active.map (fun g => (g.1, g.2.length))
      = some (emptyBoard, 2) ∧
    (addNextNetPoint (demoSession ⟨10, 0⟩ [.failure] []) ⟨0, 0⟩).map
      (fun r => (r.1, r.2.ctl.mSubState, r.2.mUndoStack.active.map (fun g => (g.1, g.2.length)),
        r.2.board.netPoints.length, r.2.board.netLines.length, r.2.msgBoxes))
      = some (false, .SubState_Idle, some (emptyBoard, 2), 3, 2, [.CommandFailed]) :=
  ⟨by decide, by decide, by decide, by rfl⟩

/-- C4 fails on the code: a left press at `(0,0)` starts a session with the tail point at
the position of the anchor; a second left press at `(5,0)` that no pointer move precedes
passes the guard (the click position differs from the anchor), and the group is committed
while the tail point `5` is still at `(0,0)`, the position of the anchor `0`: the committed
net line `6` joins the anchor to the tail point and has length zero. -/
theorem zero_length_trace_committed :
    (processAll (initialMachine emptyBoard [] []) [leftPress ⟨0, 0⟩]).map
      (fun m => (m.ctl.mSubState, m.ctl.mFixedNetPoint, m.ctl.mPositioningNetPoint2,
        m.getPosition m.ctl.mFixedNetPoint, m.getPosition m.ctl.mPositioningNetPoint2,
        m.mUndoStack.committed.length))
      = some (.SubState_PositioningNetPoint, some 0, some 5, some ⟨0, 0⟩, some ⟨0, 0⟩, 0) ∧
    (processAll (initialMachine emptyBoard [] []) [leftPress ⟨0, 0⟩, leftPress ⟨5, 0⟩]).map
      (fun m => (m.mUndoStack.committed.length, m.mUndoStack.calls.count (.commitCmdGroup, true),
        (m.board.getNetPoint 0).map (fun p => (p.position, p.isAddedToBoard)),
        (m.board.getNetPoint 5).map (fun p => (p.position, p.isAddedToBoard)),
        m.board.getNetLine 6, m.msgBoxes))
      = some (1, 1, some (⟨0, 0⟩, true), some (⟨0, 0⟩, true),
          some ⟨6, 0, 5, 500000, true⟩, []) :=
  ⟨by rfl, by rfl⟩

/-- An instance of `moves_leave_log_untouched`: two moves in the example session. -/
theorem moves_leave_log_untouched_witness :
    (demoSession ⟨10, 0⟩ [] []).ctl.mSubState = .SubState_PositioningNetPoint ∧
    ∃ m', processAll (demoSession ⟨10, 0⟩ [] [])
        ([⟨3, 4⟩, ⟨7, 7⟩].map (fun p => .GraphicsViewEvent (.GraphicsSceneMouseMove p)))
        = some m' ∧
      m'.mUndoStack = (demoSession ⟨10, 0⟩ [] []).mUndoStack ∧
      m'.ctl = (demoSession ⟨10, 0⟩ [] []).ctl :=
  have hsub : (demoSession ⟨10, 0⟩ [] []).ctl.mSubState = .SubState_PositioningNetPoint := by
    decide
  ⟨hsub,
    (moves_leave_log_untouched [⟨3, 4⟩, ⟨7, 7⟩] (demoSession ⟨10, 0⟩ [] []) hsub
      (by decide) (by decide) (by decide)).elim
      (fun m' h => h.elim (fun _ h => ⟨m', h.1, h.2.1, h.2.2.1⟩))⟩

/-- An instance of `addNextNetPoint_finishes_session`: in the example session with the
cursor at `(10,0)` the mid point lies on the tail point, and the combine-all edit reports
that it combined something. -/
theorem addNextNetPoint_finishes_session_witness :
    (demoSession ⟨10, 0⟩ [] [true]).ctl.mSubState = .SubState_PositioningNetPoint ∧
    nextCombineReport (demoSession ⟨10, 0⟩ [] [true]).combineReports = true ∧
    ∃ m', addNextNetPoint (demoSession ⟨10, 0⟩ [] [true]) ⟨10, 0⟩ = some (false, m') ∧
      m'.ctl.mSubState = .SubState_Idle ∧ m'.mUndoStack.active = none ∧
      m'.mUndoStack.committed.length = 1 :=
  have hsub : (demoSession ⟨10, 0⟩ [] [true]).ctl.mSubState = .SubState_PositioningNetPoint := by
    decide
  have hcomb : nextCombineReport (demoSession ⟨10, 0⟩ [] [true]).combineReports = true := by
    decide
  ⟨hsub, hcomb,
    (addNextNetPoint_finishes_session (demoSession ⟨10, 0⟩ [] [true]) ⟨10, 0⟩
      ⟨0, 1, 2, 0, ⟨0, 0⟩, true⟩ ⟨3, 1, 2, 0, ⟨10, 0⟩, true⟩ ⟨5, 1, 2, 0, ⟨10, 0⟩, true⟩
      emptyBoard
      [.CmdPlaceBoardNetPoint ⟨0, 0⟩ 0,
        addElementsCmd ⟨0, 1, 2, 0, ⟨0, 0⟩, true⟩ 3 ⟨0, 0⟩ 500000]
      hsub (by decide) (by decide) (by decide) (by decide) (by decide) (by decide)
      (by decide) (by decide) (by unfold NoFailure; decide) hcomb).elim
      (fun m' h => ⟨m', h.1, h.2.1, h.2.2.2.2.2.2.2.2.2.1, by
        rw [h.2.2.2.2.2.2.2.2.1]
        rfl⟩)⟩

/-- An instance of `addNextNetPoint_continues_session`: in the example session with the
cursor at `(10,5)` the click commits the two segments and continues from the tail point. -/
theorem addNextNetPoint_continues_session_witness :
    (demoSession ⟨10, 5⟩ [] []).ctl.mSubState = .SubState_PositioningNetPoint ∧
    (demoSession ⟨10, 5⟩ [] []).board.WF ∧
    nextCombineReport (demoSession ⟨10, 5⟩ [] []).combineReports = false ∧
    ∃ m', addNextNetPoint (demoSession ⟨10, 5⟩ [] []) ⟨10, 5⟩ = some (true, m') ∧
      m'.ctl.mSubState = .SubState_PositioningNetPoint ∧
      m'.ctl.mFixedNetPoint = some 5 :=
  have hsub : (demoSession ⟨10, 5⟩ [] []).ctl.mSubState = .SubState_PositioningNetPoint := by
    decide
  have hwf : (demoSession ⟨10, 5⟩ [] []).board.WF := by
    unfold Board.WF
    decide
  have hcomb : nextCombineReport (demoSession ⟨10, 5⟩ [] []).combineReports = false := by
    decide
  ⟨hsub, hwf, hcomb,
    (addNextNetPoint_continues_session (demoSession ⟨10, 5⟩ [] []) ⟨10, 5⟩
      ⟨0, 1, 2, 0, ⟨0, 0⟩, true⟩ ⟨3, 1, 2, 0, ⟨10, 0⟩, true⟩ ⟨5, 1, 2, 0, ⟨10, 5⟩, true⟩
      emptyBoard
      [.CmdPlaceBoardNetPoint ⟨0, 0⟩ 0,
        addElementsCmd ⟨0, 1, 2, 0, ⟨0, 0⟩, true⟩ 3 ⟨0, 0⟩ 500000]
      hsub (by decide) (by decide) (by decide) (by decide) (by decide) (by decide)
      (by decide) (by decide) (by unfold NoFailure; decide) hwf hcomb).elim
      (fun m' h => h.elim (fun _ h => h.elim (fun _ h => h.elim (fun _ h =>
        ⟨m', h.1, h.2.1, h.2.2.1⟩))))⟩

/-- C10 fails as stated: in the example session (cursor at `(10,0)`, so the mid point lies
on the tail point) with an environment in which the next append succeeds and the one after
it is cancelled by the user, a click at `(10,0)` appends the point merge and then has the
combine-all edit cancelled: no error is shown and failure is returned in Positioning, but
the open group has grown from two edits to three, its last edit being the point merge, and
the mid point `3` is no longer part of the board. -/
theorem addNextNetPoint_cancel_keeps_point_merge :
    (demoSession ⟨10, 0⟩ [.ok, .userCanceled] []).ctl.mSubState
      = .SubState_PositioningNetPoint ∧
    (demoSession ⟨10, 0⟩ [.ok, .userCanceled] []).mUndoStack.active.map (fun g => g.2.length)
      = some 2 ∧
    ((demoSession ⟨10, 0⟩ [.ok, .userCanceled] []).board.getNetPoint 3).map
      (fun p => p.isAddedToBoard) = some true ∧
    (addNextNetPoint (demoSession ⟨10, 0⟩ [.ok, .userCanceled] []) ⟨10, 0⟩).map
      (fun r => (r.1, r.2.msgBoxes, r.2.ctl.mSubState,
        r.2.mUndoStack.active.map (fun g => (g.2.length, g.2.getLast?)),
        (r.2.board.getNetPoint 3).map (fun p => p.isAddedToBoard),
        r.2.mUndoStack.calls.getLast?))
      = some (false, [], .SubState_PositioningNetPoint,
          some (3, some (.CmdCombineBoardNetPoints 3 5)), some false,
          some (.appendToCmdGroup (.CmdCombineAllItemsUnderBoardNetPoint 5), false)) :=
  ⟨by decide, by decide, by decide, by rfl⟩

/-- An instance of `addNextNetPoint_merge_cancelled`: in the example session with the cursor
at `(10,5)` no point merge applies and the combine-all edit is cancelled; the click changes
neither the open group nor the board. -/
theorem addNextNetPoint_merge_cancelled_witness :
    (demoSession ⟨10, 5⟩ [.userCanceled] []).ctl.mSubState = .SubState_PositioningNetPoint ∧
    addNextNetPointCombine (demoSession ⟨10, 5⟩ [.userCanceled] [])
      = some (.error .UserCanceled,
          (resultOr (addNextNetPoint (demoSession ⟨10, 5⟩ [.userCanceled] []) ⟨10, 5⟩)
            (initialMachine emptyBoard [] [])).2) ∧
    addNextNetPoint (demoSession ⟨10, 5⟩ [.userCanceled] []) ⟨10, 5⟩
      = some (false,
          (resultOr (addNextNetPoint (demoSession ⟨10, 5⟩ [.userCanceled] []) ⟨10, 5⟩)
            (initialMachine emptyBoard [] [])).2) ∧
    (resultOr (addNextNetPoint (demoSession ⟨10, 5⟩ [.userCanceled] []) ⟨10, 5⟩)
      (initialMachine emptyBoard [] [])).2.mUndoStack.active
      = (demoSession ⟨10, 5⟩ [.userCanceled] []).mUndoStack.active ∧
    (resultOr (addNextNetPoint (demoSession ⟨10, 5⟩ [.userCanceled] []) ⟨10, 5⟩)
      (initialMachine emptyBoard [] [])).2.board
      = (demoSession ⟨10, 5⟩ [.userCanceled] []).board :=
  have hsub : (demoSession ⟨10, 5⟩ [.userCanceled] []).ctl.mSubState
      = .SubState_PositioningNetPoint := by decide
  have hc : addNextNetPointCombine (demoSession ⟨10, 5⟩ [.userCanceled] [])
      = some (.error .UserCanceled,
          (resultOr (addNextNetPoint (demoSession ⟨10, 5⟩ [.userCanceled] []) ⟨10, 5⟩)
            (initialMachine emptyBoard [] [])).2) := by rfl
  have h := addNextNetPoint_merge_cancelled (demoSession ⟨10, 5⟩ [.userCanceled] []) ⟨10, 5⟩
    ⟨0, 1, 2, 0, ⟨0, 0⟩, true⟩ ⟨3, 1, 2, 0, ⟨10, 0⟩, true⟩ ⟨5, 1, 2, 0, ⟨10, 5⟩, true⟩ _
    hsub (by decide) (by decide) (by decide) (by decide) (by decide) (by decide) (by decide) hc
  ⟨hsub, hc, h.1, (h.2.2.2.2.2.1 (by decide)).1, (h.2.2.2.2.2.1 (by decide)).2⟩

/-! ## The shape of the bend -/

/-- C15 (amended): the bend computed by `calcMiddlePointPos` is well-formed for its mode. For
all points: in HV the leg from `p1` to the bend is horizontal and the leg from the bend to
`p2` vertical, in VH the reverse; in 9045 the first leg is horizontal or vertical and in 4590
the second leg is; in HV, VH and Straight the bend lies in the bounding box of `p1` and `p2`.
For points whose coordinates are 64-bit numbers and whose differences have absolute values
below `2^63` (`noWrap`): in 9045 the second leg has `|Δx| = |Δy|`, in 4590 the first leg has,
and in every mode the bend lies between `p1` and `p2` in both coordinates. -/
theorem calcMiddlePointPos_wellformed (p1 p2 : Point) :
    ((calcMiddlePointPos p1 p2 .WireMode_HV).y = p1.y ∧
      (calcMiddlePointPos p1 p2 .WireMode_HV).x = p2.x) ∧
    ((calcMiddlePointPos p1 p2 .WireMode_VH).x = p1.x ∧
      (calcMiddlePointPos p1 p2 .WireMode_VH).y = p2.y) ∧
    ((calcMiddlePointPos p1 p2 .WireMode_9045).y = p1.y ∨
      (calcMiddlePointPos p1 p2 .WireMode_9045).x = p1.x) ∧
    ((calcMiddlePointPos p1 p2 .WireMode_4590).y = p2.y ∨
      (calcMiddlePointPos p1 p2 .WireMode_4590).x = p2.x) ∧
    (∀ mode : WireMode, mode ≠ .WireMode_9045 → mode ≠ .WireMode_4590 →
      min p1.x p2.x ≤ (calcMiddlePointPos p1 p2 mode).x ∧
      (calcMiddlePointPos p1 p2 mode).x ≤ max p1.x p2.x ∧
      min p1.y p2.y ≤ (calcMiddlePointPos p1 p2 mode).y ∧
      (calcMiddlePointPos p1 p2 mode).y ≤ max p1.y p2.y) ∧
    (noWrap p1 p2 →
      |p2.x - (calcMiddlePointPos p1 p2 .WireMode_9045).x|
        = |p2.y - (calcMiddlePointPos p1 p2 .WireMode_9045).y| ∧
      |(calcMiddlePointPos p1 p2 .WireMode_4590).x - p1.x|
        = |(calcMiddlePointPos p1 p2 .WireMode_4590).y - p1.y| ∧
      ∀ mode : WireMode,
        min p1.x p2.x ≤ (calcMiddlePointPos p1 p2 mode).x ∧
        (calcMiddlePointPos p1 p2 mode).x ≤ max p1.x p2.x ∧
        min p1.y p2.y ≤ (calcMiddlePointPos p1 p2 mode).y ∧
        (calcMiddlePointPos p1 p2 mode).y ≤ max p1.y p2.y) := by
  refine ⟨⟨rfl, rfl⟩, ⟨rfl, rfl⟩, ?_, ?_, ?_, ?_⟩
  · simp only [calcMiddlePointPos]
    split_ifs
    all_goals simp only [true_or, or_true]
  · simp only [calcMiddlePointPos]
    split_ifs
    all_goals simp only [true_or, or_true]
  · intro mode h1 h2
    cases mode
    case WireMode_9045 => exact absurd rfl h1
    case WireMode_4590 => exact absurd rfl h2
    all_goals simp only [calcMiddlePointPos, min_le_iff, le_max_iff, le_refl, true_or, or_true,
      and_self]
  · intro h
    have h9 := calcMiddlePointPos_of_noWrap p1 p2 .WireMode_9045 h
    have h4 := calcMiddlePointPos_of_noWrap p1 p2 .WireMode_4590 h
    have hall := fun mode => calcMiddlePointPos_of_noWrap p1 p2 mode h
    obtain ⟨x1, y1⟩ := p1
    obtain ⟨x2, y2⟩ := p2
    have hcx := abs_cases (x2 - x1)
    have hcy := abs_cases (y2 - y1)
    refine ⟨?_, ?_, ?_⟩
    · rw [h9]
      simp only [specMidpoint, specSign]
      split_ifs
      all_goals simp only [abs_eq_abs]
      all_goals
        generalize |x2 - x1| = ax at *
        generalize |y2 - y1| = ay at *
        unfold Length at *
        omega
    · rw [h4]
      simp only [specMidpoint, specSign]
      split_ifs
      all_goals simp only [abs_eq_abs]
      all_goals
        generalize |x2 - x1| = ax at *
        generalize |y2 - y1| = ay at *
        unfold Length at *
        omega
    · intro mode
      rw [hall mode]
      cases mode
      all_goals simp only [specMidpoint, specSign, min_le_iff, le_max_iff]
      all_goals try split_ifs
      all_goals try dsimp only
      all_goals
        generalize |x2 - x1| = ax at *
        generalize |y2 - y1| = ay at *
        unfold Length at *
        omega

/-- C15 fails as stated for coordinates near the ends of the 64-bit range: for the points
`(-6·10^18, 0)` and `(6·10^18, 1)`, whose coordinates are 64-bit numbers, the bend of mode
9045 is at `x = 6·10^18 + 1`, to the right of both points, and the bend of mode 4590 at
`x = -6·10^18 - 1`, to the left of both. -/
theorem calcMiddlePointPos_leaves_bounding_box :
    (Length.representable (-6000000000000000000) ∧ Length.representable 0 ∧
      Length.representable 6000000000000000000 ∧ Length.representable 1) ∧
    (calcMiddlePointPos ⟨-6000000000000000000, 0⟩ ⟨6000000000000000000, 1⟩ .WireMode_9045).x
      = 6000000000000000001 ∧
    ¬ (calcMiddlePointPos ⟨-6000000000000000000, 0⟩ ⟨6000000000000000000, 1⟩ .WireMode_9045).x
      ≤ max (-6000000000000000000) 6000000000000000000 ∧
    (calcMiddlePointPos ⟨-6000000000000000000, 0⟩ ⟨6000000000000000000, 1⟩ .WireMode_4590).x
      = -6000000000000000001 ∧
    ¬ min (-6000000000000000000) 6000000000000000000
      ≤ (calcMiddlePointPos ⟨-6000000000000000000, 0⟩ ⟨6000000000000000000, 1⟩
          .WireMode_4590).x := by
  refine ⟨by unfold Length.representable; decide, by decide, by decide, by decide, by decide⟩

/-- An instance of `calcMiddlePointPos_wellformed`: the points `(0,0)` and `(10,4)`; the
bend of mode 9045 is at `(6,0)`, that of mode 4590 at `(4,4)`. -/
theorem calcMiddlePointPos_wellformed_witness :
    noWrap ⟨0, 0⟩ ⟨10, 4⟩ ∧
    calcMiddlePointPos ⟨0, 0⟩ ⟨10, 4⟩ .WireMode_9045 = ⟨6, 0⟩ ∧
    calcMiddlePointPos ⟨0, 0⟩ ⟨10, 4⟩ .WireMode_4590 = ⟨4, 4⟩ ∧
    ∀ mode : WireMode,
      min 0 10 ≤ (calcMiddlePointPos ⟨0, 0⟩ ⟨10, 4⟩ mode).x ∧
      (calcMiddlePointPos ⟨0, 0⟩ ⟨10, 4⟩ mode).x ≤ max 0 10 ∧
      min 0 4 ≤ (calcMiddlePointPos ⟨0, 0⟩ ⟨10, 4⟩ mode).y ∧
      (calcMiddlePointPos ⟨0, 0⟩ ⟨10, 4⟩ mode).y ≤ max 0 4 :=
  have h : noWrap ⟨0, 0⟩ ⟨10, 4⟩ := by
    unfold noWrap Length.representable
    norm_num
  ⟨h, by decide, by decide,
    ((calcMiddlePointPos_wellformed ⟨0, 0⟩ ⟨10, 4⟩).2.2.2.2.2 h).2.2⟩

/-! ## Cycling the wire mode -/

theorem getNetPoint_setPosition (b : Board) (id : Nat) (pos : Point) (j : Nat) :
    (b.setPosition id pos).getNetPoint j
      = (b.getNetPoint j).map (fun p => if p.id = id then { p with position := pos } else p) :=
  getNetPoint_map b _ (by intro q; by_cases h : q.id = id <;> simp [h]) j

/-- The board after `updateNetpointPositions` in a session with live points. -/
theorem updateNetpointPositions_eval (m : Machine) (cursorPos : Point)
    (np0 np1 np2 : BI_NetPoint)
    (hf : m.ctl.mFixedNetPoint = some np0.id)
    (hp1 : m.ctl.mPositioningNetPoint1 = some np1.id)
    (hp2 : m.ctl.mPositioningNetPoint2 = some np2.id)
    (hg0 : m.board.getNetPoint np0.id = some np0)
    (hg1 : m.board.getNetPoint np1.id = some np1)
    (hg2 : m.board.getNetPoint np2.id = some np2) :
    updateNetpointPositions m cursorPos = some { m with
      board := Board.setPosition (Board.setPosition m.board np1.id
        (calcMiddlePointPos np0.position cursorPos m.ctl.mCurrentWireMode)) np2.id cursorPos } := by
  have h2 := getNetPoint_setPosition m.board np1.id
    (calcMiddlePointPos np0.position cursorPos m.ctl.mCurrentWireMode) np2.id
  rw [hg2] at h2
  simp only [updateNetpointPositions, hf, hp1, hp2, Machine.getPosition, hg0, hg1,
    Option.map_some', h2]

/-- The positions of the anchor and of the speculative points after
`updateNetpointPositions`, when the three points are distinct objects. -/
theorem updateNetpointPositions_positions (m : Machine) (cursorPos : Point)
    (np0 np1 np2 : BI_NetPoint)
    (hg0 : m.board.getNetPoint np0.id = some np0)
    (hg1 : m.board.getNetPoint np1.id = some np1)
    (hg2 : m.board.getNetPoint np2.id = some np2)
    (hd01 : np0.id ≠ np1.id) (hd02 : np0.id ≠ np2.id) (hd12 : np1.id ≠ np2.id) (mid : Point) :
    ((m.board.setPosition np1.id mid).setPosition np2.id cursorPos).getNetPoint np0.id
      = some np0 ∧
    ((m.board.setPosition np1.id mid).setPosition np2.id cursorPos).getNetPoint np1.id
      = some { np1 with position := mid } ∧
    ((m.board.setPosition np1.id mid).setPosition np2.id cursorPos).getNetPoint np2.id
      = some { np2 with position := cursorPos } := by
  simp [getNetPoint_setPosition, hg0, hg1, hg2, hd01, hd02, hd12, hd01.symm, hd02.symm,
    hd12.symm]

theorem nextWireMode_five (mode : WireMode) :
    nextWireMode (nextWireMode (nextWireMode (nextWireMode (nextWireMode mode)))) = mode := by
  cases mode <;> rfl

/-- A right click in Positioning is a change of mode followed by
`updateNetpointPositions`. -/
theorem process_rightRelease_same (m : Machine) (pos screenPos : Point)
    (hsub : m.ctl.mSubState = .SubState_PositioningNetPoint) :
    process m (rightRelease pos screenPos screenPos)
      = (updateNetpointPositions
          { m with ctl := { m.ctl with
            mCurrentWireMode := nextWireMode m.ctl.mCurrentWireMode } } pos).map
          (fun m2 => (ProcRetVal.ForceStayInState, m2)) := by
  simp only [process, hsub, rightRelease, processSubStatePositioning,
    processPositioningSceneEvent, ↓reduceIte]

/-- Processing `n` right clicks in a session with live points applies `nextWireMode` `n`
times and touches nothing but the positions of net points. -/
theorem processAll_rightClicks (n : Nat) (pos screenPos : Point) (m : Machine)
    (hsub : m.ctl.mSubState = .SubState_PositioningNetPoint)
    (h0 : (m.getPosition m.ctl.mFixedNetPoint).isSome)
    (h1 : (m.getPosition m.ctl.mPositioningNetPoint1).isSome)
    (h2 : (m.getPosition m.ctl.mPositioningNetPoint2).isSome) :
    ∃ m', processAll m (List.replicate n (rightRelease pos screenPos screenPos)) = some m' ∧
      m'.ctl = { m.ctl with mCurrentWireMode := nextWireMode^[n] m.ctl.mCurrentWireMode } ∧
      m'.mUndoStack = m.mUndoStack ∧ m'.msgBoxes = m.msgBoxes := by
  induction n generalizing m with
  | zero => exact ⟨m, rfl, rfl, rfl, rfl⟩
  | succ n ih =>
    obtain ⟨f, hf, hfq⟩ := updateNetpointPositions_of_live
      { m with ctl := { m.ctl with mCurrentWireMode := nextWireMode m.ctl.mCurrentWireMode } }
      pos h0 h1 h2
    have hid : ∀ q, (f q).id = q.id := fun q => by rw [(hfq q).1]
    obtain ⟨m', hrun, hctl, hus, hmb⟩ := ih
      { m with
        ctl := { m.ctl with mCurrentWireMode := nextWireMode m.ctl.mCurrentWireMode }
        board := { m.board with netPoints := m.board.netPoints.map f } } hsub
      (getPosition_isSome_map m f hid _ h0) (getPosition_isSome_map m f hid _ h1)
      (getPosition_isSome_map m f hid _ h2)
    refine ⟨m', ?_, ?_, hus, hmb⟩
    · simp only [List.replicate_succ, processAll]
      rw [process_rightRelease_same m pos screenPos hsub, hf]
      exact hrun
    · rw [hctl]
      simp [Function.iterate_succ]

/-- C13: in a Positioning session whose anchor and speculative points are live, distinct
objects, a release of the right button at the screen position of its press advances the
wire mode to its successor in the cyclic order HV, VH, 9045, 4590, Straight, HV, sets the
mid point to `calcMiddlePointPos (anchor position) pos (new mode)` and the tail point to
`pos`, leaves the anchor, the sub-state and the other members of the controller as they
were, and leaves the undo stack untouched (nothing is appended); five such clicks restore
the original mode. A release of the right button at another screen position than its press
changes nothing. -/
theorem rightClick_cycles_wire_mode (m : Machine) (pos screenPos : Point)
    (np0 np1 np2 : BI_NetPoint)
    (hsub : m.ctl.mSubState = .SubState_PositioningNetPoint)
    (hf : m.ctl.mFixedNetPoint = some np0.id)
    (hp1 : m.ctl.mPositioningNetPoint1 = some np1.id)
    (hp2 : m.ctl.mPositioningNetPoint2 = some np2.id)
    (hg0 : m.board.getNetPoint np0.id = some np0)
    (hg1 : m.board.getNetPoint np1.id = some np1)
    (hg2 : m.board.getNetPoint np2.id = some np2)
    (hd01 : np0.id ≠ np1.id) (hd02 : np0.id ≠ np2.id) (hd12 : np1.id ≠ np2.id) :
    (nextWireMode .WireMode_HV = .WireMode_VH ∧ nextWireMode .WireMode_VH = .WireMode_9045 ∧
      nextWireMode .WireMode_9045 = .WireMode_4590 ∧
      nextWireMode .WireMode_4590 = .WireMode_Straight ∧
      nextWireMode .WireMode_Straight = .WireMode_HV) ∧
    (∃ m', process m (rightRelease pos screenPos screenPos) = some (.ForceStayInState, m') ∧
      m'.ctl = { m.ctl with mCurrentWireMode := nextWireMode m.ctl.mCurrentWireMode } ∧
      m'.getPosition m'.ctl.mPositioningNetPoint1
        = some (calcMiddlePointPos np0.position pos (nextWireMode m.ctl.mCurrentWireMode)) ∧
      m'.getPosition m'.ctl.mPositioningNetPoint2 = some pos ∧
      m'.getPosition m'.ctl.mFixedNetPoint = some np0.position ∧
      m'.mUndoStack = m.mUndoStack ∧ m'.msgBoxes = m.msgBoxes ∧
      m'.board.netLines = m.board.netLines) ∧
    (∃ m5, processAll m (List.replicate 5 (rightRelease pos screenPos screenPos)) = some m5 ∧
      m5.ctl = m.ctl ∧ m5.mUndoStack = m.mUndoStack) ∧
    (∀ buttonDownScreenPos, screenPos ≠ buttonDownScreenPos →
      process m (rightRelease pos screenPos buttonDownScreenPos)
        = some (.PassToParentState, m)) := by
  refine ⟨⟨rfl, rfl, rfl, rfl, rfl⟩, ?_, ?_, ?_⟩
  · have hu := updateNetpointPositions_eval
      { m with ctl := { m.ctl with mCurrentWireMode := nextWireMode m.ctl.mCurrentWireMode } }
      pos np0 np1 np2 hf hp1 hp2 hg0 hg1 hg2
    have hpos := updateNetpointPositions_positions m pos np0 np1 np2 hg0 hg1 hg2 hd01 hd02 hd12
      (calcMiddlePointPos np0.position pos (nextWireMode m.ctl.mCurrentWireMode))
    refine ⟨{ m with
      ctl := { m.ctl with mCurrentWireMode := nextWireMode m.ctl.mCurrentWireMode }
      board := Board.setPosition (Board.setPosition m.board np1.id
        (calcMiddlePointPos np0.position pos (nextWireMode m.ctl.mCurrentWireMode)))
        np2.id pos }, ?_, rfl, ?_, ?_, ?_, rfl, rfl, rfl⟩
    · rw [process_rightRelease_same m pos screenPos hsub, hu]
      rfl
    · simp only [Machine.getPosition, hp1, hpos.2.1, Option.map_some']
    · simp only [Machine.getPosition, hp2, hpos.2.2, Option.map_some']
    · simp only [Machine.getPosition, hf, hpos.1, Option.map_some']
  · obtain ⟨m5, hrun, hctl, hus, _⟩ := processAll_rightClicks 5 pos screenPos m hsub
      (by simp [Machine.getPosition, hf, hg0]) (by simp [Machine.getPosition, hp1, hg1])
      (by simp [Machine.getPosition, hp2, hg2])
    refine ⟨m5, hrun, ?_, hus⟩
    rw [hctl]
    simp [Function.iterate_succ, nextWireMode_five]
  · intro bd hne
    simp [process, hsub, rightRelease, processSubStatePositioning,
      processPositioningSceneEvent, hne]

/-- An instance of `rightClick_cycles_wire_mode`: the example session with the cursor at
`(10,5)` and mode HV; a right click at `(10,5)` selects VH and puts the mid point at
`(0,5)`. -/
theorem rightClick_cycles_wire_mode_witness :
    (demoSession ⟨10, 5⟩ [] []).ctl.mSubState = .SubState_PositioningNetPoint ∧
    (demoSession ⟨10, 5⟩ [] []).ctl.mCurrentWireMode = .WireMode_HV ∧
    ∃ m', process (demoSession ⟨10, 5⟩ [] []) (rightRelease ⟨10, 5⟩ ⟨7, 7⟩ ⟨7, 7⟩)
        = some (.ForceStayInState, m') ∧
      m'.ctl.mCurrentWireMode = .WireMode_VH ∧
      m'.getPosition m'.ctl.mPositioningNetPoint1 = some ⟨0, 5⟩ ∧
      m'.getPosition m'.ctl.mPositioningNetPoint2 = some ⟨10, 5⟩ ∧
      m'.mUndoStack = (demoSession ⟨10, 5⟩ [] []).mUndoStack :=
  have hsub : (demoSession ⟨10, 5⟩ [] []).ctl.mSubState = .SubState_PositioningNetPoint := by
    decide
  ⟨hsub, by decide,
    (rightClick_cycles_wire_mode (demoSession ⟨10, 5⟩ [] []) ⟨10, 5⟩ ⟨7, 7⟩
      ⟨0, 1, 2, 0, ⟨0, 0⟩, true⟩ ⟨3, 1, 2, 0, ⟨10, 0⟩, true⟩ ⟨5, 1, 2, 0, ⟨10, 5⟩, true⟩
      hsub (by decide) (by decide) (by decide) (by decide) (by decide) (by decide)
      (by decide) (by decide) (by decide)).2.1.elim
      (fun m' h => ⟨m', h.1, by rw [h.2.1]; rfl, by rw [h.2.2.1]; rfl, h.2.2.2.1,
        h.2.2.2.2.2.1⟩)⟩

/-! ## The order of the merges -/

/-- The state in which `addNextNetPoint` ends when it commits and finishes the session. -/
theorem addNextNetPoint_finish_eval (m : Machine) (pos : Point)
    (np0 np1 np2 : BI_NetPoint) (saved : Board) (cmds : List UndoCommand)
    (hsub : m.ctl.mSubState = .SubState_PositioningNetPoint)
    (hf : m.ctl.mFixedNetPoint = some np0.id)
    (hp1 : m.ctl.mPositioningNetPoint1 = some np1.id)
    (hp2 : m.ctl.mPositioningNetPoint2 = some np2.id)
    (hg0 : m.board.getNetPoint np0.id = some np0)
    (hg1 : m.board.getNetPoint np1.id = some np1)
    (hg2 : m.board.getNetPoint np2.id = some np2)
    (hpos : pos ≠ np0.position)
    (hact : m.mUndoStack.active = some (saved, cmds))
    (hok : NoFailure m.replies)
    (hcomb : nextCombineReport m.combineReports = true) :
    ∃ m', addNextNetPoint m pos = some (false, m') ∧
      m'.mUndoStack.committed = m.mUndoStack.committed ++
        [cmds ++ collapseCmds np1 np0 np2 ++ [.CmdCombineAllItemsUnderBoardNetPoint np2.id]] ∧
      m'.mUndoStack.calls = m.mUndoStack.calls ++
        (collapseCmds np1 np0 np2).map (fun c => (UndoCall.appendToCmdGroup c, true)) ++
        [(.appendToCmdGroup (.CmdCombineAllItemsUnderBoardNetPoint np2.id), true),
         (.commitCmdGroup, true)] ++ [(.beginCmdGroup, true), (.abortCmdGroup, true)] ∧
      m'.board = collapseBoard m.board np1 np0 np2 := by
  have hc := addNextNetPointCombine_of_ok m np0 np1 np2 saved cmds hf hp1 hp2 hg0 hg1 hg2 hact
    hok.next hok.tail.next
  have hd := hok.drop ((collapseCmds np1 np0 np2).length + 1)
  have hfin := addNextNetPointCommit_finish
    { ctl := m.ctl
      mUndoStack :=
        { committed := m.mUndoStack.committed
          active := some (saved, cmds ++ collapseCmds np1 np0 np2 ++
            [.CmdCombineAllItemsUnderBoardNetPoint np2.id])
          calls := m.mUndoStack.calls ++
            (collapseCmds np1 np0 np2).map (fun c => (UndoCall.appendToCmdGroup c, true)) ++
            [(.appendToCmdGroup (.CmdCombineAllItemsUnderBoardNetPoint np2.id), true)] }
      board := collapseBoard m.board np1 np0 np2
      highlightedNetSignal := m.highlightedNetSignal
      msgBoxes := m.msgBoxes
      replies := m.replies.drop ((collapseCmds np1 np0 np2).length + 1)
      combineReports := m.combineReports.tail }
    pos saved
    (cmds ++ collapseCmds np1 np0 np2 ++ [.CmdCombineAllItemsUnderBoardNetPoint np2.id])
    rfl hd.next hd.tail.next hd.tail.tail.next
  have hres : addNextNetPoint m pos = _ :=
    (show addNextNetPoint m pos = _ by
      simp only [addNextNetPoint, hsub, Machine.getPosition, hf, hg0, Option.map_some', hpos,
        hc, hcomb, ne_eq, not_true_eq_false, ↓reduceIte]).trans hfin
  exact ⟨_, hres, by simp⟩

/-- The calls and the committed group of a click that commits, whatever the combine-all edit
reports. -/
theorem addNextNetPoint_commit_calls (m : Machine) (pos : Point)
    (np0 np1 np2 : BI_NetPoint) (saved : Board) (cmds : List UndoCommand)
    (hsub : m.ctl.mSubState = .SubState_PositioningNetPoint)
    (hf : m.ctl.mFixedNetPoint = some np0.id)
    (hp1 : m.ctl.mPositioningNetPoint1 = some np1.id)
    (hp2 : m.ctl.mPositioningNetPoint2 = some np2.id)
    (hg0 : m.board.getNetPoint np0.id = some np0)
    (hg1 : m.board.getNetPoint np1.id = some np1)
    (hg2 : m.board.getNetPoint np2.id = some np2)
    (hpos : pos ≠ np0.position)
    (hact : m.mUndoStack.active = some (saved, cmds))
    (hok : NoFailure m.replies)
    (hwf : m.board.WF) :
    ∃ r m' rest, addNextNetPoint m pos = some (r, m') ∧
      m'.mUndoStack.calls = m.mUndoStack.calls ++
        (collapseCmds np1 np0 np2).map (fun c => (UndoCall.appendToCmdGroup c, true)) ++
        [(.appendToCmdGroup (.CmdCombineAllItemsUnderBoardNetPoint np2.id), true),
         (.commitCmdGroup, true)] ++ rest ∧
      m'.mUndoStack.committed = m.mUndoStack.committed ++
        [cmds ++ collapseCmds np1 np0 np2 ++ [.CmdCombineAllItemsUnderBoardNetPoint np2.id]] := by
  cases hcomb : nextCombineReport m.combineReports with
  | true =>
    obtain ⟨m', hres, hcm, hcalls, _⟩ := addNextNetPoint_finish_eval m pos np0 np1 np2 saved cmds
      hsub hf hp1 hp2 hg0 hg1 hg2 hpos hact hok hcomb
    exact ⟨false, m', _, hres, hcalls, hcm⟩
  | false =>
    obtain ⟨fixed, _, _, hres⟩ := addNextNetPoint_continue_eval m pos np0 np1 np2 saved cmds
      hsub hf hp1 hp2 hg0 hg1 hg2 hpos hact hok hwf hcomb
    refine ⟨true, _, [(.beginCmdGroup, true), (.appendToCmdGroup (addElementsCmd fixed
      (collapseBoard m.board np1 np0 np2).nextId pos m.ctl.mCurrentWidth), true)], hres, ?_, ?_⟩
    · simp [startedSession, begunSession]
    · simp [startedSession, begunSession]

/-- C14: in a Positioning session with live anchor and speculative points and an open group,
a click away from the anchor whose undo stack calls succeed appends at most one point merge,
chosen in this order: the mid point into the anchor if their positions are equal; else the
mid point into the tail point if their positions are equal; else none. The combine-all edit
under the tail point is appended after it, and the commit follows. For the anchor `(0,0)`,
the cursor `(10,0)` and mode HV the mid point is at `(10,0)` and is merged into the tail
point `5`; the board at the commit holds the single net line `4` from the anchor `0` at
`(0,0)` to the tail point `5` at `(10,0)`. -/
theorem addNextNetPoint_collapse_order (m : Machine) (pos : Point)
    (np0 np1 np2 : BI_NetPoint) (saved : Board) (cmds : List UndoCommand)
    (hsub : m.ctl.mSubState = .SubState_PositioningNetPoint)
    (hf : m.ctl.mFixedNetPoint = some np0.id)
    (hp1 : m.ctl.mPositioningNetPoint1 = some np1.id)
    (hp2 : m.ctl.mPositioningNetPoint2 = some np2.id)
    (hg0 : m.board.getNetPoint np0.id = some np0)
    (hg1 : m.board.getNetPoint np1.id = some np1)
    (hg2 : m.board.getNetPoint np2.id = some np2)
    (hpos : pos ≠ np0.position)
    (hact : m.mUndoStack.active = some (saved, cmds))
    (hok : NoFailure m.replies)
    (hwf : m.board.WF) :
    (∃ r m' merge rest, addNextNetPoint m pos = some (r, m') ∧
      (np1.position = np0.position → merge = [.CmdCombineBoardNetPoints np1.id np0.id]) ∧
      (np1.position ≠ np0.position → np1.position = np2.position →
        merge = [.CmdCombineBoardNetPoints np1.id np2.id]) ∧
      (np1.position ≠ np0.position → np1.position ≠ np2.position → merge = []) ∧
      m'.mUndoStack.calls = m.mUndoStack.calls ++
        merge.map (fun c => (UndoCall.appendToCmdGroup c, true)) ++
        [(.appendToCmdGroup (.CmdCombineAllItemsUnderBoardNetPoint np2.id), true),
         (.commitCmdGroup, true)] ++ rest ∧
      m'.mUndoStack.committed = m.mUndoStack.committed ++
        [cmds ++ merge ++ [.CmdCombineAllItemsUnderBoardNetPoint np2.id]]) ∧
    (demoSession ⟨10, 0⟩ [] []).ctl.mCurrentWireMode = .WireMode_HV ∧
    (demoSession ⟨10, 0⟩ [] []).getPosition (some 0) = some ⟨0, 0⟩ ∧
    (demoSession ⟨10, 0⟩ [] []).getPosition (some 3) = some ⟨10, 0⟩ ∧
    (demoSession ⟨10, 0⟩ [] []).getPosition (some 5) = some ⟨10, 0⟩ ∧
    (addNextNetPoint (demoSession ⟨10, 0⟩ [] []) ⟨10, 0⟩).map
      (fun r => (r.2.mUndoStack.committed.map (fun g => g.drop 2),
        r.2.mUndoStack.active.map (fun g =>
          (g.1.netLines.filter (fun l => l.isAddedToBoard),
           (g.1.getNetPoint 0).map (fun p => p.position),
           (g.1.getNetPoint 5).map (fun p => p.position)))))
      = some ([[.CmdCombineBoardNetPoints 3 5, .CmdCombineAllItemsUnderBoardNetPoint 5]],
          some ([⟨4, 0, 5, 500000, true⟩], some ⟨0, 0⟩, some ⟨10, 0⟩)) := by
  refine ⟨?_, by decide, by decide, by decide, by decide, by rfl⟩
  obtain ⟨r, m', rest, hres, hcalls, hcm⟩ := addNextNetPoint_commit_calls m pos np0 np1 np2
    saved cmds hsub hf hp1 hp2 hg0 hg1 hg2 hpos hact hok hwf
  refine ⟨r, m', collapseCmds np1 np0 np2, rest, hres, ?_, ?_, ?_, hcalls, hcm⟩
  · intro c1
    simp [collapseCmds, c1]
  · intro c1 c2
    have c1' : ¬ np2.position = np0.position := c2 ▸ c1
    simp [collapseCmds, c1, c1', c2]
  · intro c1 c2
    simp [collapseCmds, c1, c2]

/-- An instance of `addNextNetPoint_collapse_order`: the example session with the cursor at
`(10,0)`, where the mid point lies on the tail point. -/
theorem addNextNetPoint_collapse_order_witness :
    (demoSession ⟨10, 0⟩ [] []).ctl.mSubState = .SubState_PositioningNetPoint ∧
    (demoSession ⟨10, 0⟩ [] []).board.WF ∧
    ∃ r m' rest, addNextNetPoint (demoSession ⟨10, 0⟩ [] []) ⟨10, 0⟩ = some (r, m') ∧
      m'.mUndoStack.calls = (demoSession ⟨10, 0⟩ [] []).mUndoStack.calls ++
        [(.appendToCmdGroup (.CmdCombineBoardNetPoints 3 5), true),
         (.appendToCmdGroup (.CmdCombineAllItemsUnderBoardNetPoint 5), true),
         (.commitCmdGroup, true)] ++ rest :=
  have hsub : (demoSession ⟨10, 0⟩ [] []).ctl.mSubState = .SubState_PositioningNetPoint := by
    decide
  have hwf : (demoSession ⟨10, 0⟩ [] []).board.WF := by
    unfold Board.WF
    decide
  ⟨hsub, hwf,
    (addNextNetPoint_collapse_order (demoSession ⟨10, 0⟩ [] []) ⟨10, 0⟩
      ⟨0, 1, 2, 0, ⟨0, 0⟩, true⟩ ⟨3, 1, 2, 0, ⟨10, 0⟩, true⟩ ⟨5, 1, 2, 0, ⟨10, 0⟩, true⟩
      emptyBoard
      [.CmdPlaceBoardNetPoint ⟨0, 0⟩ 0,
        addElementsCmd ⟨0, 1, 2, 0, ⟨0, 0⟩, true⟩ 3 ⟨0, 0⟩ 500000]
      hsub (by decide) (by decide) (by decide) (by decide) (by decide) (by decide)
      (by decide) (by decide) (by unfold NoFailure; decide) hwf).1.elim
      (fun r h => h.elim (fun m' h => h.elim (fun merge h => h.elim (fun rest h =>
        ⟨r, m', rest, h.1, by
          have hm := h.2.2.1 (by decide) (by decide)
          have hc := h.2.2.2.2.1
          rw [hm] at hc
          simpa using hc⟩))))⟩

/-! ## No layer selected -/

/-- C11 (amended): when `startPositioning` is called from Idle without a supplied anchor, the
current layer name does not resolve to a layer of the board, and its `beginCmdGroup` succeeds,
it shows the "No layer selected" error and returns failure; no net point and no net line is
made (the board is unchanged), nothing is appended (the only calls to the undo stack are the
begin and one abort) and nothing is committed; the controller ends in Idle with the anchor and
the four speculative references empty and no net highlighted. The group it opened is gone if
that abort succeeds; if the abort throws, the error is not shown and the empty group stays
open. If `beginCmdGroup` fails, the error shown is that of the begin, not "No layer
selected"; no group is opened, no abort is asked, and the controller and the board are as
they were. -/
theorem startPositioning_no_layer (m : Machine) (pos : Point)
    (hsub : m.ctl.mSubState = .SubState_Idle)
    (hlayer : m.ctl.mCurrentLayerName ∉ m.board.layers) :
    (m.mUndoStack.active = none → Reply.next m.replies = .ok →
      ∃ m' ok, startPositioning m pos none = some (false, m') ∧
        m'.msgBoxes = m.msgBoxes ++ [.NoLayerSelected] ∧
        m'.ctl.mSubState = .SubState_Idle ∧
        m'.ctl.mFixedNetPoint = none ∧
        m'.ctl.mPositioningNetLine1 = none ∧ m'.ctl.mPositioningNetPoint1 = none ∧
        m'.ctl.mPositioningNetLine2 = none ∧ m'.ctl.mPositioningNetPoint2 = none ∧
        m'.highlightedNetSignal = none ∧
        m'.board = m.board ∧
        m'.mUndoStack.committed = m.mUndoStack.committed ∧
        m'.mUndoStack.calls
          = m.mUndoStack.calls ++ [(.beginCmdGroup, true), (.abortCmdGroup, ok)] ∧
        (ok = true ↔ Reply.next m.replies.tail = .ok) ∧
        (ok = true → m'.mUndoStack.active = none) ∧
        (ok = false → m'.mUndoStack.active = some (m.board, []))) ∧
    (∀ e, (beginCmdGroup m).1 = some e →
      e ≠ .NoLayerSelected ∧
      ∃ m', startPositioning m pos none = some (false, m') ∧
        m'.msgBoxes = m.msgBoxes ++ [e] ∧ m'.ctl = m.ctl ∧
        m'.mUndoStack.calls = m.mUndoStack.calls ++ [(.beginCmdGroup, false)] ∧
        m'.mUndoStack.active = m.mUndoStack.active ∧
        m'.mUndoStack.committed = m.mUndoStack.committed ∧ m'.board = m.board) := by
  refine ⟨fun hact hbegin => ?_, fun e he => ?_⟩
  swap
  · have hb := beginCmdGroup_of_error m e he
    refine ⟨beginCmdGroup_error_ne m e he, _,
      startPositioning_of_begin_error m pos none e hsub he, ?_⟩
    simp [Machine.critical, hb]
  rcases m with ⟨ctl, ⟨committed, active, calls⟩, board, hl, mb, replies, cr⟩
  simp only at hsub hlayer hact hbegin
  subst hact
  rcases Reply.next_cases replies.tail with hr | ⟨e, hr⟩
  · have hres : startPositioning
        ⟨ctl, ⟨committed, none, calls⟩, board, hl, mb, replies, cr⟩ pos none = some (false,
        ⟨{ ctl with
            mSubState := .SubState_Idle
            mFixedNetPoint := none
            mPositioningNetLine1 := none
            mPositioningNetLine2 := none
            mPositioningNetPoint1 := none
            mPositioningNetPoint2 := none },
          ⟨committed, none, calls ++ [(.beginCmdGroup, true), (.abortCmdGroup, true)]⟩,
          board, none, mb ++ [.NoLayerSelected], replies.tail.tail, cr⟩) := by
      simp [startPositioning, startPositioningTry, hsub, beginCmdGroup, Machine.nextReply,
        hbegin, Reply.toException_ok, Machine.popReply, Board.getLayer, hlayer, catchAndAbort,
        Machine.critical, abortPositioning, abortCmdGroup, hr]
    exact ⟨_, true, hres, by simp [hr]⟩
  · have hne : Reply.next replies.tail ≠ Reply.ok := by
      intro hc
      rw [hc] at hr
      simp [Reply.toException] at hr
    have hres : startPositioning
        ⟨ctl, ⟨committed, none, calls⟩, board, hl, mb, replies, cr⟩ pos none = some (false,
        ⟨{ ctl with
            mSubState := .SubState_Idle
            mFixedNetPoint := none
            mPositioningNetLine1 := none
            mPositioningNetLine2 := none
            mPositioningNetPoint1 := none
            mPositioningNetPoint2 := none },
          ⟨committed, some (board, []),
            calls ++ [(.beginCmdGroup, true), (.abortCmdGroup, false)]⟩,
          board, none, mb ++ [.NoLayerSelected], replies.tail.tail, cr⟩) := by
      simp [startPositioning, startPositioningTry, hsub, beginCmdGroup, Machine.nextReply,
        hbegin, Reply.toException_ok, Machine.popReply, Board.getLayer, hlayer, catchAndAbort,
        Machine.critical, abortPositioning, abortCmdGroup, hr, Machine.logCall]
    exact ⟨_, false, hres, by simp [hne]⟩

/-- C11 fails as stated when a call of the undo stack fails. On a board on which the current
layer name does not resolve, a start from Idle without an anchor: with an environment that
lets the begin succeed and makes the abort fail, "No layer selected" is shown and the
controller is Idle, but the group that was opened is still open; with an environment that
makes the begin fail, the error shown is that of the begin, not "No layer selected". -/
theorem startPositioning_no_layer_undo_failure :
    (initialMachine noLayerBoard [] []).ctl.mSubState = .SubState_Idle ∧
    (initialMachine noLayerBoard [] []).board.getLayer
      (initialMachine noLayerBoard [] []).ctl.mCurrentLayerName = none ∧
    (startPositioning (initialMachine noLayerBoard [.ok, .failure] []) ⟨0, 0⟩ none).map
      (fun r => (r.1, r.2.msgBoxes, r.2.ctl.mSubState, r.2.mUndoStack.active,
        r.2.mUndoStack.calls))
      = some (false, [.NoLayerSelected], .SubState_Idle, some (noLayerBoard, []),
          [(.beginCmdGroup, true), (.abortCmdGroup, false)]) ∧
    (startPositioning (initialMachine noLayerBoard [.failure] []) ⟨0, 0⟩ none).map
      (fun r => (r.1, r.2.msgBoxes, r.2.ctl.mSubState, r.2.mUndoStack.active,
        r.2.mUndoStack.calls))
      = some (false, [.CommandFailed], .SubState_Idle, none, [(.beginCmdGroup, false)]) :=
  ⟨by decide, by decide, by rfl, by rfl⟩

/-- An instance of `startPositioning_no_layer`: the first press on a board without
layers. -/
theorem startPositioning_no_layer_witness :
    (initialMachine noLayerBoard [] []).ctl.mSubState = .SubState_Idle ∧
    (initialMachine noLayerBoard [] []).ctl.mCurrentLayerName
      ∉ (initialMachine noLayerBoard [] []).board.layers ∧
    ∃ m', startPositioning (initialMachine noLayerBoard [] []) ⟨0, 0⟩ none = some (false, m') ∧
      m'.msgBoxes = [.NoLayerSelected] ∧ m'.ctl.mSubState = .SubState_Idle ∧
      m'.board = noLayerBoard ∧ m'.mUndoStack.active = none :=
  have hsub : (initialMachine noLayerBoard [] []).ctl.mSubState = .SubState_Idle := by decide
  have hlayer : (initialMachine noLayerBoard [] []).ctl.mCurrentLayerName
      ∉ (initialMachine noLayerBoard [] []).board.layers := by decide
  ⟨hsub, hlayer,
    ((startPositioning_no_layer (initialMachine noLayerBoard [] []) ⟨0, 0⟩ hsub hlayer).1
      (by decide) (by decide)).elim
      (fun m' h => h.elim (fun ok h =>
        ⟨m', h.1, h.2.1, h.2.2.1, h.2.2.2.2.2.2.2.2.2.1,
          h.2.2.2.2.2.2.2.2.2.2.2.2.2.1 ((h.2.2.2.2.2.2.2.2.2.2.2.2.1).mpr (by decide))⟩))⟩

/-! ## The toolbar action, and a failing begin after a commit -/

/-- C12 fails on the code: in the example session (anchor `(0,0)`, cursor `(10,5)`, mode HV)
the mid point `3` is at `calcMiddlePointPos (0,0) (10,5) HV = (10,0)`; the wire mode action VH
of the toolbar sets the mode and leaves the mid point at `(10,0)`, although
`calcMiddlePointPos (0,0) (10,5) VH = (0,5)`; the sub-state is still Positioning. The next
pointer move to the same cursor position puts the mid point at `(0,5)`; a right click, which
changes the mode as well, recomputes the mid point at once. -/
theorem wireModeAction_leaves_mid_point :
    ((demoSession ⟨10, 5⟩ [] []).ctl.mSubState, (demoSession ⟨10, 5⟩ [] []).ctl.mCurrentWireMode,
      (demoSession ⟨10, 5⟩ [] []).getPosition (demoSession ⟨10, 5⟩ [] []).ctl.mFixedNetPoint,
      (demoSession ⟨10, 5⟩ [] []).getPosition
        (demoSession ⟨10, 5⟩ [] []).ctl.mPositioningNetPoint1,
      (demoSession ⟨10, 5⟩ [] []).getPosition
        (demoSession ⟨10, 5⟩ [] []).ctl.mPositioningNetPoint2)
      = (.SubState_PositioningNetPoint, .WireMode_HV, some ⟨0, 0⟩, some ⟨10, 0⟩,
          some ⟨10, 5⟩) ∧
    calcMiddlePointPos ⟨0, 0⟩ ⟨10, 5⟩ .WireMode_HV = ⟨10, 0⟩ ∧
    ((wireModeActionTriggered (demoSession ⟨10, 5⟩ [] []) .WireMode_VH).ctl.mSubState,
      (wireModeActionTriggered (demoSession ⟨10, 5⟩ [] []) .WireMode_VH).ctl.mCurrentWireMode,
      (wireModeActionTriggered (demoSession ⟨10, 5⟩ [] []) .WireMode_VH).getPosition
        (wireModeActionTriggered (demoSession ⟨10, 5⟩ [] []) .WireMode_VH).ctl.mFixedNetPoint,
      (wireModeActionTriggered (demoSession ⟨10, 5⟩ [] []) .WireMode_VH).getPosition
        (wireModeActionTriggered (demoSession ⟨10, 5⟩ [] [])
          .WireMode_VH).ctl.mPositioningNetPoint1,
      (wireModeActionTriggered (demoSession ⟨10, 5⟩ [] []) .WireMode_VH).getPosition
        (wireModeActionTriggered (demoSession ⟨10, 5⟩ [] [])
          .WireMode_VH).ctl.mPositioningNetPoint2)
      = (.SubState_PositioningNetPoint, .WireMode_VH, some ⟨0, 0⟩, some ⟨10, 0⟩,
          some ⟨10, 5⟩) ∧
    calcMiddlePointPos ⟨0, 0⟩ ⟨10, 5⟩ .WireMode_VH = ⟨0, 5⟩ ∧
    (process (wireModeActionTriggered (demoSession ⟨10, 5⟩ [] []) .WireMode_VH)
        (mouseMove ⟨10, 5⟩)).map
      (fun r => (r.2.ctl.mCurrentWireMode, r.2.getPosition r.2.ctl.mPositioningNetPoint1,
        r.2.getPosition r.2.ctl.mPositioningNetPoint2))
      = some (.WireMode_VH, some ⟨0, 5⟩, some ⟨10, 5⟩) ∧
    (process (demoSession ⟨10, 5⟩ [] []) (rightRelease ⟨10, 5⟩ ⟨0, 0⟩ ⟨0, 0⟩)).map
      (fun r => (r.2.ctl.mCurrentWireMode, r.2.getPosition r.2.ctl.mPositioningNetPoint1,
        r.2.getPosition r.2.ctl.mPositioningNetPoint2))
      = some (.WireMode_VH, some ⟨0, 5⟩, some ⟨10, 5⟩) :=
  ⟨by rfl, by decide, by rfl, by decide, by rfl, by rfl⟩

/-- C16 fails on the code: in the example session (cursor at `(10,5)`) a left press at
`(10,5)` whose append and commit succeed and whose following `beginCmdGroup` fails ends in
Idle with the error shown, but the anchor and the four speculative references are still set
and the net signal is still highlighted. This happens when the combine-all edit reports
that it combined something (the begin of the group that is opened only to be aborted
fails), and when it combined nothing (the begin of the new session fails). -/
theorem idle_with_stale_references :
    ((demoSession ⟨10, 5⟩ [.ok, .ok, .failure] [true]).ctl.mSubState,
      (demoSession ⟨10, 5⟩ [.ok, .ok, .failure] [true]).mUndoStack.committed.length)
      = (.SubState_PositioningNetPoint, 0) ∧
    (process (demoSession ⟨10, 5⟩ [.ok, .ok, .failure] [true]) (leftPress ⟨10, 5⟩)).map
      (fun r => (r.2.ctl.mSubState, r.2.ctl.mFixedNetPoint, r.2.ctl.mPositioningNetLine1,
        r.2.ctl.mPositioningNetPoint1, r.2.ctl.mPositioningNetLine2,
        r.2.ctl.mPositioningNetPoint2, r.2.highlightedNetSignal, r.2.msgBoxes,
        r.2.mUndoStack.committed.length, r.2.mUndoStack.calls.getLast?))
      = some (.SubState_Idle, some 0, some 4, some 3, some 6, some 5, some 2,
          [.CommandFailed], 1, some (.beginCmdGroup, false)) ∧
    (process (demoSession ⟨10, 5⟩ [.ok, .ok, .failure] [false]) (leftPress ⟨10, 5⟩)).map
      (fun r => (r.2.ctl.mSubState, r.2.ctl.mFixedNetPoint, r.2.ctl.mPositioningNetLine1,
        r.2.ctl.mPositioningNetPoint1, r.2.ctl.mPositioningNetLine2,
        r.2.ctl.mPositioningNetPoint2, r.2.highlightedNetSignal, r.2.msgBoxes,
        r.2.mUndoStack.committed.length, r.2.mUndoStack.calls.getLast?))
      = some (.SubState_Idle, some 0, some 4, some 3, some 6, some 5, some 2,
          [.CommandFailed], 1, some (.beginCmdGroup, false)) :=
  ⟨by rfl, by rfl, by rfl⟩

end librepcb
